import Mathlib

/-!
# simulation-engine: a shallow embedding of the kernel and of the metrics aggregator

Sources embedded here

* `src/model/events.go`          event type tags and event payloads
* `src/messaging/metrics_tx.go`  `Metrics`, `MetricsTx.NewEventSubscriber`, `Metrics.reset`
* `src/model/simulation.go`      `Simulation`, `NewSimulation`, `Start`, `SendCommand`,
                                 `processCommand`, `simulateEpoch`, `infectRandomAgent`, `time`,
                                 `applyJurisdictionPolicy`, `createHouseholds` ..
                                 `createHealthCareSpaces`, `createAgents`

Conventions

* Go `int64` values are integers; an `int64` product or sum that the code computes (the product
  `epoch*time_step` of the subscriber, the increment of the epoch counter) is reduced with
  `wrapInt64` (two's complement).  Go's `%` and `/` truncate toward zero
  (`Int.tmod`, `Int.tdiv`).
* The five counters of `Metrics` are private to the subscriber, start at 0 and move by one per
  event; they are kept as integers.
* The channel `commands` is the queue of the commands whose senders wait in `SendCommand`.
* A Go panic is the `Except.error` branch of a result.
* Pointers into the entity slices (`*Space`, `*Jurisdiction`) are positions in the owning list.
* Random draws (`sampleNormal`, `sampleUniform`, `sampleJurisdiction`) are read from an oracle
  that is an argument of the function that draws.
-/

namespace SimulationEngine

/-! ## Machine integers -/

/-- Two's-complement reduction of an integer to the range of Go's `int64`. -/
def wrapInt64 (x : Int) : Int := (x + 2 ^ 63) % 2 ^ 64 - 2 ^ 63

/-- Go's `a * b` on `int64` operands. -/
def mulInt64 (a b : Int) : Int := wrapInt64 (a * b)

/-- Go's `a % b` on integers: the remainder has the sign of the dividend. -/
def goRem (a b : Int) : Int := Int.tmod a b

/-- Go's `a / b` on integers: the quotient is truncated toward zero. -/
def goDiv (a b : Int) : Int := Int.tdiv a b

/-- The constant `24*60*60*1000` of the subscriber: one day in milliseconds. -/
def dayMillis : Int := 24 * 60 * 60 * 1000

/-! ## Policies, commands (`model` package) -/

/-- A `float64`, carried as its IEEE-754 bit pattern; no claim computes with it. -/
abbrev Float64 := Nat

/-- Modelled from the spec: the `TestStrategy` enum is declared outside `src/`; only its
existence as a field type (`PolicyUpdatePayload.TestStrategy`) is visible. -/
abbrev TestStrategy := String

/-- Modelled from the spec: `Policy` is declared outside `src/`.  Its fields are those the spec
lists (mask mandate, lockdown, test strategy, test capacity multiplier), with the names that
`PolicyUpdatePayload` in `events.go` uses. -/
structure Policy where
  IsMaskMandate : Bool
  IsLockdown : Bool
  TestStrategy : TestStrategy
  TestCapacityMultiplier : Float64
  deriving DecidableEq, Repr

/-- Modelled from the spec: `Jurisdiction` is declared outside `src/`.  `simulation.go` reads
its `id`; the spec gives it an identifier, a geographic weight and a current policy. -/
structure Jurisdiction where
  id : String
  weight : Float64
  policy : Policy
  deriving DecidableEq, Repr

/-- The payload type that `processCommand` asserts for an `ApplyJurisdictionPolicy` command; the
two fields are the ones `applyJurisdictionPolicy` reads. -/
structure ApplyJurisdictionPolicyPayload where
  JurisdictionId : String
  Policy : Policy
  deriving DecidableEq, Repr

/-- Modelled from the spec: the command type tags are declared outside `src/`.  The four named
tags are the cases of the switch in `processCommand`; `other` is any other value of the tag
type. -/
inductive CommandType where
  | Quit
  | Pause
  | Resume
  | ApplyJurisdictionPolicy
  | other (tag : String)
  deriving DecidableEq, Repr

/-- The dynamic value of `Command.Payload` (a Go `interface{}`), as far as the type assertion
`command.Payload.(*ApplyJurisdictionPolicyPayload)` can tell values apart: the nil interface, a
pointer to a payload, a nil pointer of that pointer type, or a value of any other type. -/
inductive CommandPayload where
  | nil
  | policy (p : ApplyJurisdictionPolicyPayload)
  | nilPolicyPointer
  | other (tag : Nat)
  deriving DecidableEq, Repr

/-- Modelled from the spec: `Command` is declared outside `src/`; `processCommand` reads its
`Type` and `Payload` fields. -/
structure Command where
  Type_ : CommandType
  Payload : CommandPayload
  deriving DecidableEq, Repr

/-! ## Events (`events.go`) -/

/-- The type `logger.EventType`: a string tag. -/
abbrev EventType := String

def SimulationInitialized : EventType := "simulation_initialized"
def EpochEnd : EventType := "epoch_end"
def CommandProcessed : EventType := "command_processed"
def AgentStateUpdate : EventType := "agent_state_update"
def AgentLocationUpdate : EventType := "agent_location_update"
def SpaceOccupancyUpdate : EventType := "space_occupancy_update"
def SpaceTestingUpdate : EventType := "space_testing_udpate"
def PolicyUpdate : EventType := "policy_update"

/-- Modelled from the spec: `AgentState` is declared outside `src/`.  The four named states are
the cases of the switch in the metrics subscriber (the closed health-state set of the spec);
`other` is any value of the underlying type that is none of them, the `default` case. -/
inductive AgentState where
  | Susceptible
  | Infected
  | Infectious
  | Immune
  | other (tag : Nat)
  deriving DecidableEq, Repr

/-- A `uuid.UUID`, as a number. -/
abbrev UUID := Nat

/-- A `time.Time`, as a number of nanoseconds. -/
abbrev Time := Int

structure EpochEndPayload where
  Epoch : Int
  TimeStep : Int
  Time : Time
  deriving DecidableEq, Repr

structure CommandProcessedPayload where
  Epoch : Int
  Command : Command
  deriving DecidableEq, Repr

structure AgentStateUpdatePayload where
  Epoch : Int
  Id : UUID
  State : AgentState
  PreviousState : AgentState
  HasInfectionProfile : Bool
  jurisdiction : Option Nat
  deriving DecidableEq, Repr

structure PolicyUpdatePayload where
  JurisdictionId : String
  IsMaskMandate : Bool
  IsLockdown : Bool
  TestStrategy : TestStrategy
  TestCapacityMultiplier : Float64
  deriving DecidableEq, Repr

/-- The dynamic value of `logger.Event.Payload` (a Go `interface{}`): one of the payload structs
that the code in `src/` builds or asserts, or a value of any other type. -/
inductive EventPayload where
  | epochEnd (p : EpochEndPayload)
  | commandProcessed (p : CommandProcessedPayload)
  | agentStateUpdate (p : AgentStateUpdatePayload)
  | policyUpdate (p : PolicyUpdatePayload)
  | other (tag : Nat)
  deriving DecidableEq, Repr

/-- The struct `logger.Event`, as the code in `src/` builds it: a type tag and a payload. -/
structure Event where
  Type_ : EventType
  Payload : EventPayload
  deriving DecidableEq, Repr

/-! ## Metrics aggregator (`metrics_tx.go`) -/

structure Metrics where
  NewInfections : Int
  NewRecoveries : Int
  InfectedPopulation : Int
  InfectiousPopulation : Int
  ImmunePopulation : Int
  deriving DecidableEq, Repr

/-- The value of `new(Metrics)`: every counter is zero. -/
def Metrics.new : Metrics :=
  { NewInfections := 0, NewRecoveries := 0, InfectedPopulation := 0,
    InfectiousPopulation := 0, ImmunePopulation := 0 }

/-- The method `Metrics.reset`. -/
def Metrics.reset (metrics : Metrics) : Metrics :=
  { metrics with NewInfections := 0, NewRecoveries := 0 }

/-- What one call of the subscriber does besides updating the counters: `tx.send` publishes the
counters to the metrics exchange, `metrics.print` writes them, under a date, to the console. -/
inductive Effect where
  | send (snapshot : Metrics)
  | print (time : Time) (snapshot : Metrics)
  deriving DecidableEq, Repr

/-- The closure returned by `MetricsTx.NewEventSubscriber`, as a function of the captured
`metrics` and of the event.  It returns the counters after the call and the effects of the call,
or fails with the message of the panic.  (A failure of the broker inside `tx.send` belongs to the
transport layer and is not represented.) -/
def NewEventSubscriber (metrics : Metrics) (event : Event) : Except String (Metrics × List Effect) :=
  if event.Type_ = EpochEnd then
    match event.Payload with
    | .epochEnd payload =>
      if goRem (mulInt64 payload.Epoch payload.TimeStep) dayMillis ≠ 0 then
        .ok (metrics, [])
      else
        .ok (metrics.reset, [.send metrics, .print payload.Time metrics])
    | _ => .ok (metrics, [])
  else if event.Type_ = AgentStateUpdate then
    match event.Payload with
    | .agentStateUpdate payload =>
      match payload.State with
      | .Infected =>
        .ok ({ metrics with
                NewInfections := metrics.NewInfections + 1,
                InfectedPopulation := metrics.InfectedPopulation + 1 }, [])
      | .Infectious =>
        .ok ({ metrics with InfectiousPopulation := metrics.InfectiousPopulation + 1 }, [])
      | .Immune =>
        .ok ({ metrics with
                ImmunePopulation := metrics.ImmunePopulation + 1,
                NewRecoveries := metrics.NewRecoveries + 1,
                InfectedPopulation := metrics.InfectedPopulation - 1,
                InfectiousPopulation := metrics.InfectiousPopulation - 1 }, [])
      | .Susceptible =>
        .ok ({ metrics with ImmunePopulation := metrics.ImmunePopulation - 1 }, [])
      | .other _ => .error "this should not be possible"
    | _ => .ok (metrics, [])
  else
    .ok (metrics, [])

/-- The snapshots that a call of the subscriber published. -/
def published : Except String (Metrics × List Effect) → List Metrics
  | .ok (_, effects) => effects.filterMap fun
      | .send snapshot => some snapshot
      | .print _ _ => none
  | .error _ => []

/-- The subscriber flushes on the `EpochEnd` event of `epoch` under `time_step`: the call
publishes a snapshot. -/
def flushesAt (metrics : Metrics) (epoch time_step : Int) (time : Time) : Prop :=
  published (NewEventSubscriber metrics
    { Type_ := EpochEnd,
      Payload := .epochEnd { Epoch := epoch, TimeStep := time_step, Time := time } }) ≠ []

instance (metrics : Metrics) (epoch time_step : Int) (time : Time) :
    Decidable (flushesAt metrics epoch time_step time) := by
  unfold flushesAt; infer_instance

/-- The subscriber fed a sequence of events, in order, starting from the counters `metrics`; a
panic ends the run. -/
def runSubscriber (metrics : Metrics) : List Event → Except String Metrics
  | [] => .ok metrics
  | event :: rest =>
    match NewEventSubscriber metrics event with
    | .ok (metrics', _) => runSubscriber metrics' rest
    | .error msg => .error msg

/-! ### Event sequences generated by the health-state cycle -/

/-- The single cycle of the health states:
Susceptible → Infected → Infectious → Immune → Susceptible. -/
def cycleNext : AgentState → Option AgentState
  | .Susceptible => some .Infected
  | .Infected => some .Infectious
  | .Infectious => some .Immune
  | .Immune => some .Susceptible
  | .other _ => none

/-- The payload of an event that the subscriber treats as an agent state update. -/
def stateUpdateOf (event : Event) : Option AgentStateUpdatePayload :=
  if event.Type_ = AgentStateUpdate then
    match event.Payload with
    | .agentStateUpdate payload => some payload
    | _ => none
  else none

/-- The health state of every agent, by agent id. -/
abbrev Population := UUID → AgentState

/-- Every agent Susceptible. -/
def allSusceptible : Population := fun _ => .Susceptible

def Population.set (pop : Population) (id : UUID) (state : AgentState) : Population :=
  fun other => if other = id then state else pop other

/-- The sequence is generated by the state machine from the population `pop`: every agent state
update moves its agent one step along the cycle.  Events that are not agent state updates
(`EpochEnd` among them) may stand anywhere. -/
def validFrom (pop : Population) : List Event → Bool
  | [] => true
  | event :: rest =>
    match stateUpdateOf event with
    | some payload =>
      decide (cycleNext (pop payload.Id) = some payload.State) &&
        validFrom (pop.set payload.Id payload.State) rest
    | none => validFrom pop rest

/-- The finite set `F` holds exactly the agents of `pop` whose state satisfies `P`. -/
def tracks (pop : Population) (P : AgentState → Prop) (F : Finset UUID) : Prop :=
  ∀ id, id ∈ F ↔ P (pop id)

/-- An agent in this state carries the infection: it is Infected or Infectious. -/
def carriesInfection (s : AgentState) : Prop := s = .Infected ∨ s = .Infectious

instance : DecidablePred carriesInfection := fun s => by
  unfold carriesInfection; infer_instance

/-- The population counters of `m` count the agents of `pop`: InfectedPopulation those that are
Infected or Infectious, InfectiousPopulation those that are Infectious, ImmunePopulation those
that are Immune. -/
def Counts (pop : Population) (m : Metrics) : Prop :=
  ∃ A B C : Finset UUID,
    tracks pop carriesInfection A ∧
    tracks pop (fun s => s = .Infectious) B ∧
    tracks pop (fun s => s = .Immune) C ∧
    m.InfectedPopulation = A.card ∧
    m.InfectiousPopulation = B.card ∧
    m.ImmunePopulation = C.card

/-! ## Entities of the simulation (`model` package) -/

inductive SpaceKind where
  | Household
  | Office
  | Social
  | Healthcare
  deriving DecidableEq, Repr

/-- Modelled from the spec: `Space` and its constructors `newHousehold`, `newOffice`,
`newSocialSpace`, `newHealthcareSpace` are declared outside `src/`.  A space has a kind, a
capacity fixed at creation and a jurisdiction; the jurisdiction pointer is a position in the
jurisdiction list. -/
structure Space where
  kind : SpaceKind
  capacity : Int
  jurisdiction : Nat
  deriving DecidableEq, Repr

/-- A `*Space`: the slice the space lives in and its position there. -/
structure SpaceRef where
  kind : SpaceKind
  index : Nat
  deriving DecidableEq, Repr

/-- Modelled from the spec: `Agent` and `newAgent` are declared outside `src/`.  The fields
`household`, `office`, `location`, `social_spaces` and `healthcare_spaces` are the ones
`createAgents` writes; the health state is the one of the spec.  A nil pointer is `none`. -/
structure Agent where
  id : UUID
  state : AgentState
  household : Option Nat
  office : Option Nat
  location : Option SpaceRef
  social_spaces : List Nat
  healthcare_spaces : List Nat
  deriving DecidableEq, Repr

/-- Modelled from the spec: `newAgent` is declared outside `src/`; a new agent is Susceptible
and has no space yet. -/
def newAgent (id : UUID) : Agent :=
  { id := id, state := .Susceptible, household := none, office := none, location := none,
    social_spaces := [], healthcare_spaces := [] }

/-- Modelled from the spec: `Pathogen` is declared outside `src/`; the spec lists the incubation,
infectious and immunity durations and the transmission probability per contact. -/
structure Pathogen where
  incubation : Float64
  infectious : Float64
  immunity : Float64
  transmission : Float64
  deriving DecidableEq, Repr

/-- Modelled from the spec: `Config` is declared outside `src/`; `NewSimulation` reads these
four fields. -/
structure Config where
  Id : UUID
  Pathogen : Pathogen
  NumAgents : Int
  TimeStep : Int
  deriving DecidableEq, Repr

/-- The random draws of one call, in the order the call makes them; every sampling function
reads the draw at the current position and the caller moves one position on.
`normalFloor mu sigma k` is the value of `math.Floor(sampleNormal(mu, sigma))` at draw `k`, an
integer within the range of `int64`; `uniform lo hi k` is the value of `sampleUniform(lo, hi)`;
`jurisdiction k` is the position of the jurisdiction that `sampleJurisdiction` returns; `uuid k`
is the identifier a constructor draws. -/
structure Sampler where
  normalFloor : Nat → Nat → Nat → Int
  uniform : Int → Int → Nat → Int
  jurisdiction : Nat → Nat
  uuid : Nat → UUID

/-! ## Population generator (`simulation.go`) -/

/-- The loop shared, word for word, by `createHouseholds`, `createOffices`, `createSocialSpaces`
and `createHealthCareSpaces`; they differ in the constructor (`kind`) and in the parameters
`mu`, `sigma` of `sampleNormal`.  `fuel` bounds the number of iterations; the result is `none`
when the fuel is used up with capacity still remaining. -/
def createSpacesLoop (kind : SpaceKind) (mu sigma : Nat) (rng : Sampler) :
    (fuel : Nat) → (remaining_capacity : Int) → (draw : Nat) → Option (List Space)
  | 0, remaining_capacity, _ => if remaining_capacity > 0 then none else some []
  | fuel + 1, remaining_capacity, draw =>
    if remaining_capacity > 0 then
      let capacity := max (rng.normalFloor mu sigma draw) 1
      let capacity := if capacity > remaining_capacity then remaining_capacity else capacity
      let space : Space :=
        { kind := kind, capacity := capacity, jurisdiction := rng.jurisdiction (draw + 1) }
      (createSpacesLoop kind mu sigma rng fuel (remaining_capacity - capacity) (draw + 2)).map
        (space :: ·)
    else some []

def createHouseholds (total_capacity : Int) (rng : Sampler) : Option (List Space) :=
  createSpacesLoop .Household 4 1 rng total_capacity.toNat total_capacity 0

def createOffices (total_capacity : Int) (rng : Sampler) : Option (List Space) :=
  createSpacesLoop .Office 10 2 rng total_capacity.toNat total_capacity 0

def createSocialSpaces (total_capacity : Int) (rng : Sampler) : Option (List Space) :=
  createSpacesLoop .Social 10 2 rng total_capacity.toNat total_capacity 0

def createHealthCareSpaces (total_capacity : Int) (rng : Sampler) : Option (List Space) :=
  createSpacesLoop .Healthcare 173 25 rng total_capacity.toNat total_capacity 0

/-- The sum of the capacities of a list of spaces. -/
def totalCapacity (spaces : List Space) : Int := (spaces.map (·.capacity)).sum

/-- The inner loops of `createAgents`: `n` times, draw a position with
`sampleUniform(0, len(spaces)-1)` and read `spaces` there.  Reading outside the slice panics. -/
def drawAffiliations (spaces : List Space) (rng : Sampler) :
    (n : Nat) → (draw : Nat) → Except String (List Nat)
  | 0, _ => .ok []
  | n + 1, draw =>
    let idx := rng.uniform 0 ((spaces.length : Int) - 1) draw
    if 0 ≤ idx ∧ idx < spaces.length then
      (drawAffiliations spaces rng n (draw + 1)).map (idx.toNat :: ·)
    else .error "index out of range"

/-- The first loop of `createAgents`, `for i := 0; i < int(count); i++`: build `count` agents,
each with its social and healthcare affiliations. -/
def buildAgentsLoop (social_spaces healthcare_spaces : List Space) (rng : Sampler) :
    (count : Nat) → (draw : Nat) → Except String (List Agent)
  | 0, _ => .ok []
  | count + 1, draw =>
    let agent := newAgent (rng.uuid draw)
    let num_social_spaces := (max 1 (rng.normalFloor 5 4 (draw + 1))).toNat
    let num_healthcare_spaces :=
      (max 1 (rng.normalFloor 5 4 (draw + 2 + num_social_spaces))).toNat
    match drawAffiliations social_spaces rng num_social_spaces (draw + 2) with
    | .error msg => .error msg
    | .ok social =>
      match drawAffiliations healthcare_spaces rng num_healthcare_spaces
          (draw + 3 + num_social_spaces) with
      | .error msg => .error msg
      | .ok healthcare =>
        (buildAgentsLoop social_spaces healthcare_spaces rng count
            (draw + 3 + num_social_spaces + num_healthcare_spaces)).map
          ({ agent with social_spaces := social, healthcare_spaces := healthcare } :: ·)

/-- The largest length `make([]*Agent, count)` accepts: the runtime refuses a slice whose
elements take more than its `maxAlloc`, 2^48 bytes on a 64-bit platform, and a pointer takes 8
bytes, so the limit is 2^45 elements.  An allocation within the limit is taken to be served. -/
def maxSliceLen : Int := 35184372088832

/-- The head of `createAgents` for a count that is not negative: `agents := make([]*Agent, count)`,
which panics for a count past `maxSliceLen`, then the first loop. -/
def buildAgents (social_spaces healthcare_spaces : List Space) (rng : Sampler)
    (count : Nat) (draw : Nat) : Except String (List Agent) :=
  if maxSliceLen < (count : Int) then .error "makeslice: len out of range"
  else buildAgentsLoop social_spaces healthcare_spaces rng count draw

/-- What the household loop writes into an agent: `agent.household = household` and
`agent.location = household`. -/
def assignHousehold (agent : Agent) (household_idx : Nat) : Agent :=
  { agent with household := some household_idx,
               location := some { kind := .Household, index := household_idx } }

/-- What the office loop writes into an agent: `agent.office = office`. -/
def assignOffice (agent : Agent) (office_idx : Nat) : Agent :=
  { agent with office := some office_idx }

/-- The loop shared by "allocate agents to households" and "allocate agents to offices" in
`createAgents`, from the loop state `(idx, allocated_capacity)` on; the two differ in what they
write into the agent (`assign`).  Reading `spaces` outside the slice panics. -/
def allocateLoop (assign : Agent → Nat → Agent) (spaces : List Space) :
    List Agent → (idx : Nat) → (allocated_capacity : Int) → Except String (List Agent)
  | [], _, _ => .ok []
  | agent :: rest, idx, allocated_capacity =>
    match spaces[idx]? with
    | none => .error "index out of range"
    | some space =>
      let allocated_capacity := allocated_capacity + 1
      let next :=
        if allocated_capacity = space.capacity then
          allocateLoop assign spaces rest (idx + 1) 0
        else
          allocateLoop assign spaces rest idx allocated_capacity
      next.map (assign agent idx :: ·)

/-- The loop "allocate agents to households" of `createAgents`. -/
def allocateHouseholds (households : List Space) (agents : List Agent) :
    Except String (List Agent) :=
  allocateLoop assignHousehold households agents 0 0

/-- The loop "allocate agents to offices" of `createAgents`. -/
def allocateOffices (offices : List Space) (agents : List Agent) :
    Except String (List Agent) :=
  allocateLoop assignOffice offices agents 0 0

/-- The round-robin layout in the words of the spec: "agents are laid into household/office
lists in order, filling each space to its capacity before moving to the next".  The result
lists, agent by agent, the position of the space the agent is laid into; `start` is the
position of the first space of the list. -/
def roundRobin (start : Nat) : List Space → List Nat
  | [] => []
  | space :: rest => List.replicate space.capacity.toNat start ++ roundRobin (start + 1) rest

/-- The two allocation loops of `createAgents`, one after the other, on the agents built by the
first loop. -/
def allocateAgents (households offices : List Space) (agents : List Agent) :
    Except String (List Agent) :=
  match allocateHouseholds households agents with
  | .error msg => .error msg
  | .ok agents => allocateOffices offices agents

def createAgents (count : Int) (households offices social_spaces healthcare_spaces : List Space)
    (rng : Sampler) : Except String (List Agent) :=
  if count < 0 then .error "makeslice: len out of range"
  else
    match buildAgents social_spaces healthcare_spaces rng count.toNat 0 with
    | .error msg => .error msg
    | .ok agents => allocateAgents households offices agents

/-- The agents of the list whose household is the one at position `k`. -/
def householdMembers (agents : List Agent) (k : Nat) : List Agent :=
  agents.filter fun agent => agent.household = some k

/-- The agents of the list whose office is the one at position `k`. -/
def officeMembers (agents : List Agent) (k : Nat) : List Agent :=
  agents.filter fun agent => agent.office = some k

/-! ## Simulation kernel (`simulation.go`) -/

/-- Modelled from the spec: the `logger` package is outside `src/`.  `Log(event)` records the
event for delivery, in log order; the logger is the list of events logged so far, oldest
first. -/
abbrev Logger := List Event

def Logger.Log (logger : Logger) (event : Event) : Logger := logger ++ [event]

structure Simulation where
  id : UUID
  pathogen : Pathogen
  start_time : Time
  epoch : Int
  time_step : Int
  agents : List Agent
  jurisdictions : List Jurisdiction
  households : List Space
  offices : List Space
  social_spaces : List Space
  healthcare_spaces : List Space
  is_paused : Bool
  should_quit : Bool
  commands : List Command
  logger : Logger
  deriving DecidableEq, Repr

/-- The function `NewSimulation`.  The jurisdictions (`jurisdictionsFromFeatures`), the clock
(`time.Now`) and the random draws of the five constructor calls are arguments.  The result is
`none` if a space loop does not come back and an error if `createAgents` panics. -/
def NewSimulation (config : Config) (jurisdictions : List Jurisdiction) (now : Time)
    (rng1 rng2 rng3 rng4 rng5 : Sampler) : Option (Except String Simulation) :=
  match createHouseholds config.NumAgents rng1,
        createOffices config.NumAgents rng2,
        createSocialSpaces (goDiv config.NumAgents 100) rng3,
        createHealthCareSpaces (goDiv config.NumAgents 1000 * 5) rng4 with
  | some households, some offices, some social_spaces, some healthcare_spaces =>
    some <|
      (createAgents config.NumAgents households offices social_spaces healthcare_spaces
          rng5).map fun agents =>
        { id := config.Id, pathogen := config.Pathogen, start_time := now, epoch := 0,
          time_step := config.TimeStep, agents := agents, jurisdictions := jurisdictions,
          households := households, offices := offices, social_spaces := social_spaces,
          healthcare_spaces := healthcare_spaces, is_paused := false,
          should_quit := false, commands := [], logger := [] }
  | _, _, _, _ => none

/-- Modelled from the spec: `Jurisdiction.applyPolicy` is declared outside `src/`.  Following
the spec it "replaces the jurisdiction's policy wholesale and emits `PolicyUpdate`"; the emitted
event is returned with the updated jurisdiction, its payload the `PolicyUpdatePayload` of
`events.go`. -/
def Jurisdiction.applyPolicy (jur : Jurisdiction) (policy : Policy) : Jurisdiction × Event :=
  ({ jur with policy := policy },
   { Type_ := PolicyUpdate,
     Payload := .policyUpdate
       { JurisdictionId := jur.id, IsMaskMandate := policy.IsMaskMandate,
         IsLockdown := policy.IsLockdown, TestStrategy := policy.TestStrategy,
         TestCapacityMultiplier := policy.TestCapacityMultiplier } })

/-- The loop of `applyJurisdictionPolicy` over the jurisdictions: the first one whose id is the
payload's gets the policy, and the loop returns; `none` when no id matches. -/
def applyToFirstMatch (payload : ApplyJurisdictionPolicyPayload) :
    List Jurisdiction → Option (List Jurisdiction × Event)
  | [] => none
  | jur :: rest =>
    if jur.id = payload.JurisdictionId then
      some ((jur.applyPolicy payload.Policy).1 :: rest, (jur.applyPolicy payload.Policy).2)
    else
      (applyToFirstMatch payload rest).map fun (rest', event) => (jur :: rest', event)

def Simulation.applyJurisdictionPolicy (sim : Simulation)
    (payload : ApplyJurisdictionPolicyPayload) : Simulation :=
  match applyToFirstMatch payload sim.jurisdictions with
  | some (jurisdictions, event) =>
    { sim with jurisdictions := jurisdictions, logger := sim.logger.Log event }
  | none => sim

/-- The event that `processCommand` logs for `command` at the end. -/
def commandProcessedEvent (sim : Simulation) (command : Command) : Event :=
  { Type_ := CommandProcessed,
    Payload := .commandProcessed { Epoch := sim.epoch, Command := command } }

/-- The `switch command.Type` statement of `processCommand`.  Dereferencing a nil
`*ApplyJurisdictionPolicyPayload` panics. -/
def Simulation.switchCommand (sim : Simulation) (command : Command) :
    Except String Simulation :=
  match command.Type_ with
  | .Quit => .ok { sim with should_quit := true }
  | .Pause => .ok { sim with is_paused := true }
  | .Resume => .ok { sim with is_paused := false }
  | .ApplyJurisdictionPolicy =>
    match command.Payload with
    | .policy payload => .ok (sim.applyJurisdictionPolicy payload)
    | .nilPolicyPointer => .error "invalid memory address or nil pointer dereference"
    | _ => .ok sim
  | .other _ => .ok sim

/-- The method `Simulation.processCommand`: the switch, then the `CommandProcessed` event. -/
def Simulation.processCommand (sim : Simulation) (command : Command) :
    Except String Simulation :=
  match sim.switchCommand command with
  | .ok sim => .ok { sim with logger := sim.logger.Log (commandProcessedEvent sim command) }
  | .error msg => .error msg

/-- The command is an `ApplyJurisdictionPolicy` with a well-typed payload whose jurisdiction id
is the id of a jurisdiction of the simulation. -/
def matchesJurisdiction (sim : Simulation) (command : Command) : Bool :=
  match command.Type_, command.Payload with
  | .ApplyJurisdictionPolicy, .policy payload =>
    sim.jurisdictions.any fun jur => jur.id = payload.JurisdictionId
  | _, _ => false

/-! ## Epoch loop (`simulation.go`) -/

/-- The entity graph of a simulation: what the updates of agents and spaces write. -/
structure Entities where
  agents : List Agent
  households : List Space
  offices : List Space
  social_spaces : List Space
  healthcare_spaces : List Space
  deriving DecidableEq, Repr

def Simulation.withEntities (sim : Simulation) (entities : Entities) : Simulation :=
  { sim with agents := entities.agents, households := entities.households,
             offices := entities.offices, social_spaces := entities.social_spaces,
             healthcare_spaces := entities.healthcare_spaces }

/-- Modelled from the spec: the events an agent emits.  "Agent update: ... transition to
Infected and emit `AgentStateUpdate`", "each move emits `AgentLocationUpdate`".  The payload of
a location update is a value the code in `src/` never inspects. -/
inductive AgentEvent where
  | stateUpdate (p : AgentStateUpdatePayload)
  | locationUpdate (tag : Nat)
  deriving DecidableEq, Repr

/-- Modelled from the spec: the events a space emits.  "Space update: recompute and emit
`SpaceOccupancyUpdate`", "Healthcare spaces additionally ... emit `SpaceTestingUpdate`". -/
inductive SpaceEvent where
  | occupancyUpdate (tag : Nat)
  | testingUpdate (tag : Nat)
  deriving DecidableEq, Repr

def AgentEvent.toEvent : AgentEvent → Event
  | .stateUpdate p => { Type_ := AgentStateUpdate, Payload := .agentStateUpdate p }
  | .locationUpdate tag => { Type_ := AgentLocationUpdate, Payload := .other tag }

def SpaceEvent.toEvent : SpaceEvent → Event
  | .occupancyUpdate tag => { Type_ := SpaceOccupancyUpdate, Payload := .other tag }
  | .testingUpdate tag => { Type_ := SpaceTestingUpdate, Payload := .other tag }

/-- Modelled from the spec: `Agent.update`, `Agent.infect` and `Space.update` are declared
outside `src/`.  Following the spec an update reads the simulation, changes the state of agents
and spaces, and emits events into the bus; it does not write the epoch counter, the time step,
the flags, the jurisdictions or the command queue.  Each is given as a function of the
simulation and of the position of the entity, returning the entity graph after the update and
the events emitted, in order. -/
structure Updater where
  agentUpdate : Simulation → Nat → Entities × List AgentEvent
  agentInfect : Simulation → Nat → Entities × List AgentEvent
  spaceUpdate : Simulation → SpaceRef → Entities × List SpaceEvent

/-- The events logged one after the other. -/
def Logger.LogAll (logger : Logger) (events : List Event) : Logger :=
  events.foldl Logger.Log logger

/-- The call `agent.update(sim)` for the agent at position `i`. -/
def Simulation.updateAgent (u : Updater) (sim : Simulation) (i : Nat) : Simulation :=
  { sim.withEntities (u.agentUpdate sim i).1 with
    logger := sim.logger.LogAll ((u.agentUpdate sim i).2.map AgentEvent.toEvent) }

/-- The call `space.update(sim)` for the space of the given kind at position `i`. -/
def Simulation.updateSpace (u : Updater) (kind : SpaceKind) (sim : Simulation) (i : Nat) :
    Simulation :=
  { sim.withEntities (u.spaceUpdate sim { kind := kind, index := i }).1 with
    logger := sim.logger.LogAll
      ((u.spaceUpdate sim { kind := kind, index := i }).2.map SpaceEvent.toEvent) }

/-- The method `Simulation.time`: the start time plus
`time.Duration(epoch*time_step) * time.Millisecond`, a number of nanoseconds in `int64`. -/
def Simulation.time (sim : Simulation) : Time :=
  sim.start_time + wrapInt64 (mulInt64 sim.epoch sim.time_step * 1000000)

/-- The event that `simulateEpoch` logs at the end. -/
def epochEndEvent (sim : Simulation) : Event :=
  { Type_ := EpochEnd,
    Payload := .epochEnd { Epoch := sim.epoch, TimeStep := sim.time_step, Time := sim.time } }

/-- The slice of spaces of the given kind. -/
def Simulation.spacesOf (sim : Simulation) : SpaceKind → List Space
  | .Household => sim.households
  | .Office => sim.offices
  | .Social => sim.social_spaces
  | .Healthcare => sim.healthcare_spaces

/-- The loop `for _, agent := range sim.agents { agent.update(sim) }`; it ranges over the slice
as it is when the loop starts. -/
def Simulation.updateAgents (u : Updater) (sim : Simulation) : Simulation :=
  (List.range sim.agents.length).foldl (Simulation.updateAgent u) sim

/-- The loop `for _, space := range ... { space.update(sim) }` over the spaces of one kind. -/
def Simulation.updateSpaces (u : Updater) (kind : SpaceKind) (sim : Simulation) : Simulation :=
  (List.range (sim.spacesOf kind).length).foldl (Simulation.updateSpace u kind) sim

/-- The five `for ... range` loops of `simulateEpoch`, in the order of the source: agents,
households, offices, social spaces, healthcare spaces. -/
def Simulation.updateEntities (u : Updater) (sim : Simulation) : Simulation :=
  let sim := sim.updateAgents u
  let sim := sim.updateSpaces u .Household
  let sim := sim.updateSpaces u .Office
  let sim := sim.updateSpaces u .Social
  sim.updateSpaces u .Healthcare

/-- The method `Simulation.simulateEpoch`.  The counter is an `int64`: `sim.epoch = sim.epoch + 1`
wraps at 2^63 - 1. -/
def Simulation.simulateEpoch (u : Updater) (sim : Simulation) : Simulation :=
  if sim.is_paused then sim
  else
    let sim := { sim with epoch := wrapInt64 (sim.epoch + 1) }
    let sim := sim.updateEntities u
    { sim with logger := sim.logger.Log (epochEndEvent sim) }

/-- The method `Simulation.infectRandomAgent`.  Reading `sim.agents` outside the slice
panics. -/
def Simulation.infectRandomAgent (u : Updater) (rng : Sampler) (sim : Simulation) :
    Except String Simulation :=
  let agent_idx := rng.uniform 0 ((sim.agents.length : Int) - 1) 0
  if 0 ≤ agent_idx ∧ agent_idx < sim.agents.length then
    .ok { sim.withEntities (u.agentInfect sim agent_idx.toNat).1 with
          logger := sim.logger.LogAll
            ((u.agentInfect sim agent_idx.toNat).2.map AgentEvent.toEvent) }
  else .error "index out of range"

/-- The method `Simulation.SendCommand`, seen from the kernel: the sender waits on the channel
behind the senders that came before. -/
def Simulation.SendCommand (sim : Simulation) (command : Command) : Simulation :=
  { sim with commands := sim.commands ++ [command] }

/-- The `select` statement of `Start`: receive the command of the first waiting sender and
process it, or, when no sender waits, simulate an epoch. -/
def Simulation.selectCommand (u : Updater) (sim : Simulation) : Except String Simulation :=
  match sim.commands with
  | command :: waiting => { sim with commands := waiting }.processCommand command
  | [] => .ok (sim.simulateEpoch u)

/-- One iteration of the `for` loop of `Start`: `none` when `Start` returns because the quit
flag is set, else the state after the `select`. -/
def Simulation.loopIteration (u : Updater) (sim : Simulation) :
    Except String (Option Simulation) :=
  if sim.should_quit then .ok none
  else (sim.selectCommand u).map some

/-- The `for` loop of `Start`, run for as many iterations as `arrivals` is long; `arrivals`
lists, per iteration, the commands whose senders reach the channel before that iteration's
`select`.  The result is the state in which the loop stands after these iterations, or in which
`Start` returned. -/
def Simulation.runLoop (u : Updater) : Simulation → List (List Command) →
    Except String Simulation
  | sim, [] => .ok sim
  | sim, arriving :: later =>
    if sim.should_quit then .ok sim
    else
      match (arriving.foldl Simulation.SendCommand sim).selectCommand u with
      | .ok sim => Simulation.runLoop u sim later
      | .error msg => .error msg

/-- The method `Simulation.Start`, for as many loop iterations as `arrivals` is long: infect one
agent, then loop.  The delivery of the logged events to the subscribers
(`go sim.logger.Broadcast()`) runs beside the loop and is not part of the state. -/
def Simulation.Start (u : Updater) (rng : Sampler) (sim : Simulation)
    (arrivals : List (List Command)) : Except String Simulation :=
  match sim.infectRandomAgent u rng with
  | .ok sim => sim.runLoop u arrivals
  | .error msg => .error msg

/-- The commands processed one after the other, as in successive iterations of the loop that
each find the next command waiting. -/
def Simulation.processCommands : Simulation → List Command → Except String Simulation
  | sim, [] => .ok sim
  | sim, command :: rest =>
    match sim.processCommand command with
    | .ok sim => Simulation.processCommands sim rest
    | .error msg => .error msg

/-- The population after the agent state updates of a sequence of events. -/
def populationAfter (pop : Population) : List Event → Population
  | [] => pop
  | event :: rest =>
    match stateUpdateOf event with
    | some payload => populationAfter (pop.set payload.Id payload.State) rest
    | none => populationAfter pop rest

/-- The part of a simulation that the updates of agents and spaces do not write: identifier,
pathogen, start time, epoch counter, time step, jurisdictions, flags and command queue. -/
def Simulation.control (sim : Simulation) :
    UUID × Pathogen × Time × Int × Int × List Jurisdiction × Bool × Bool × List Command :=
  (sim.id, sim.pathogen, sim.start_time, sim.epoch, sim.time_step, sim.jurisdictions,
    sim.is_paused, sim.should_quit, sim.commands)

/-! ## Sample data -/

def samplePolicy : Policy :=
  { IsMaskMandate := true, IsLockdown := false, TestStrategy := "everyone",
    TestCapacityMultiplier := 2 }

def sampleJurisdictions : List Jurisdiction :=
  [{ id := "E1", weight := 1, policy := ⟨false, false, "none", 1⟩ },
   { id := "E2", weight := 1, policy := ⟨false, false, "none", 1⟩ },
   { id := "E2", weight := 3, policy := ⟨false, true, "none", 1⟩ }]

def sampleSimulation : Simulation :=
  { id := 7, pathogen := ⟨1, 2, 3, 4⟩, start_time := 0, epoch := 5, time_step := 3600000,
    agents := [], jurisdictions := sampleJurisdictions, households := [], offices := [],
    social_spaces := [], healthcare_spaces := [], is_paused := false, should_quit := false,
    commands := [], logger := [] }

/-- A sampler whose every normal draw floors to `size`. -/
def constantSampler (size : Int) : Sampler :=
  { normalFloor := fun _ _ _ => size, uniform := fun _ _ _ => 0, jurisdiction := fun _ => 0,
    uuid := fun k => k }

/-- Two agents running through the cycle, with an `EpochEnd` in between. -/
def sampleEvents : List Event :=
  [{ Type_ := AgentStateUpdate, Payload := .agentStateUpdate ⟨1, 10, .Infected, .Susceptible, true, none⟩ },
   { Type_ := AgentStateUpdate, Payload := .agentStateUpdate ⟨2, 11, .Infected, .Susceptible, true, none⟩ },
   { Type_ := EpochEnd, Payload := .epochEnd ⟨24, 3600000, 0⟩ },
   { Type_ := AgentStateUpdate, Payload := .agentStateUpdate ⟨30, 10, .Infectious, .Infected, true, none⟩ },
   { Type_ := AgentStateUpdate, Payload := .agentStateUpdate ⟨60, 10, .Immune, .Infectious, true, none⟩ },
   { Type_ := AgentStateUpdate, Payload := .agentStateUpdate ⟨90, 10, .Susceptible, .Immune, false, none⟩ }]

/-- The households built for 23 agents when every sample floors to 4: capacities
4, 4, 4, 4, 4, 3. -/
def sampleHouseholds : List Space := (createHouseholds 23 (constantSampler 4)).getD []

/-- The offices built for 23 agents when every sample floors to 10: capacities 10, 10, 3. -/
def sampleOffices : List Space := (createOffices 23 (constantSampler 10)).getD []

def sampleSocialSpaces : List Space := [{ kind := .Social, capacity := 10, jurisdiction := 0 }]

def sampleHealthcareSpaces : List Space :=
  [{ kind := .Healthcare, capacity := 5, jurisdiction := 0 }]

/-- The 23 agents that the first loop of `createAgents` builds over the sample spaces. -/
def sampleBuilt : List Agent :=
  match buildAgents sampleSocialSpaces sampleHealthcareSpaces (constantSampler 4) 23 0 with
  | .ok agents => agents
  | .error _ => []

/-- An updater under which every agent reports a move and every space its occupancy, and an
infection turns the agent at the given position Infected. -/
def sampleUpdater : Updater :=
  { agentUpdate := fun sim i =>
      (⟨sim.agents, sim.households, sim.offices, sim.social_spaces, sim.healthcare_spaces⟩,
       [.locationUpdate i]),
    agentInfect := fun sim i =>
      (⟨sim.agents.modify (fun agent => { agent with state := .Infected }) i, sim.households,
        sim.offices, sim.social_spaces, sim.healthcare_spaces⟩,
       [.stateUpdate ⟨sim.epoch, i, .Infected, .Susceptible, true, none⟩]),
    spaceUpdate := fun sim ref =>
      (⟨sim.agents, sim.households, sim.offices, sim.social_spaces, sim.healthcare_spaces⟩,
       [.occupancyUpdate ref.index]) }

/-- A small simulation: two agents, one household, one office, one social space, one healthcare
space, at epoch 23 with a time step of one hour. -/
def sampleRunning : Simulation :=
  { id := 7, pathogen := ⟨1, 2, 3, 4⟩, start_time := 0, epoch := 23, time_step := 3600000,
    agents := [newAgent 10, newAgent 11], jurisdictions := sampleJurisdictions,
    households := [⟨.Household, 2, 0⟩], offices := [⟨.Office, 2, 0⟩],
    social_spaces := sampleSocialSpaces, healthcare_spaces := sampleHealthcareSpaces,
    is_paused := false, should_quit := false, commands := [], logger := [] }

/-- The running sample simulation at the start of its run, epoch 0. -/
def sampleFirstEpoch : Simulation := { sampleRunning with epoch := 0 }

/-- The running sample simulation with the epoch counter at the largest `int64`, 2^63 - 1. -/
def sampleLastEpoch : Simulation := { sampleRunning with epoch := 9223372036854775807 }

/-! # Theorems -/

/-! ## Arithmetic of the flush test -/

theorem wrapInt64_of_inRange (x : Int) (hlo : -2 ^ 63 ≤ x) (hhi : x < 2 ^ 63) :
    wrapInt64 x = x := by
  unfold wrapInt64
  omega

theorem goRem_eq_zero_iff (a b : Int) : goRem a b = 0 ↔ b ∣ a := by
  unfold goRem
  exact Int.dvd_iff_tmod_eq_zero.symm

/-- The subscriber's reaction to a well-typed `EpochEnd` event when the Go product is not a
multiple of a day: nothing. -/
theorem subscriber_epochEnd_skip (m : Metrics) (p : EpochEndPayload)
    (h : ¬ dayMillis ∣ mulInt64 p.Epoch p.TimeStep) :
    NewEventSubscriber m { Type_ := EpochEnd, Payload := .epochEnd p } = .ok (m, []) := by
  have h0 : goRem (mulInt64 p.Epoch p.TimeStep) dayMillis ≠ 0 := fun h1 =>
    h ((goRem_eq_zero_iff _ _).1 h1)
  simp [NewEventSubscriber, h0]

/-- The subscriber's reaction to a well-typed `EpochEnd` event when the Go product is a multiple
of a day: send, print, reset. -/
theorem subscriber_epochEnd_flush (m : Metrics) (p : EpochEndPayload)
    (h : dayMillis ∣ mulInt64 p.Epoch p.TimeStep) :
    NewEventSubscriber m { Type_ := EpochEnd, Payload := .epochEnd p } =
      .ok (m.reset, [.send m, .print p.Time m]) := by
  have h0 : goRem (mulInt64 p.Epoch p.TimeStep) dayMillis = 0 := (goRem_eq_zero_iff _ _).2 h
  simp [NewEventSubscriber, h0]

theorem flushesAt_iff (m : Metrics) (epoch time_step : Int) (time : Time) :
    flushesAt m epoch time_step time ↔ dayMillis ∣ mulInt64 epoch time_step := by
  unfold flushesAt
  by_cases h : dayMillis ∣ mulInt64 epoch time_step
  · rw [subscriber_epochEnd_flush m ⟨epoch, time_step, time⟩ h]
    simp [published, h]
  · rw [subscriber_epochEnd_skip m ⟨epoch, time_step, time⟩ h]
    simp [published, h]

/-! ## C1 -/

/-- C2, as amended: on an `EpochEnd` event with payload epoch `e` and time step `t` whose product
`e * t` is representable in `int64`: if `e * t` is not a multiple of 86,400,000 the subscriber
returns `m` unchanged and has no effect; if it is, the subscriber publishes exactly one snapshot,
equal to `m` as it was before the reset, and the counters afterwards have NewInfections = 0 and
NewRecoveries = 0 with the three population counters those of `m`. -/
theorem metrics_epoch_end (m : Metrics) (e t : Int) (time : Time)
    (hlo : -2 ^ 63 ≤ e * t) (hhi : e * t < 2 ^ 63) :
    (¬ (86400000 : Int) ∣ e * t →
      NewEventSubscriber m
          { Type_ := EpochEnd, Payload := .epochEnd { Epoch := e, TimeStep := t, Time := time } } =
        .ok (m, [])) ∧
    ((86400000 : Int) ∣ e * t →
      ∃ m' effects,
        NewEventSubscriber m
            { Type_ := EpochEnd, Payload := .epochEnd { Epoch := e, TimeStep := t, Time := time } } =
          .ok (m', effects) ∧
        published (.ok (m', effects)) = [m] ∧
        effects.head? = some (.send m) ∧
        m'.NewInfections = 0 ∧ m'.NewRecoveries = 0 ∧
        m'.InfectedPopulation = m.InfectedPopulation ∧
        m'.InfectiousPopulation = m.InfectiousPopulation ∧
        m'.ImmunePopulation = m.ImmunePopulation) := by
  have hday : dayMillis = 86400000 := by norm_num [dayMillis]
  have hprod : mulInt64 e t = e * t := wrapInt64_of_inRange _ hlo hhi
  refine ⟨fun h => ?_, fun h => ?_⟩
  · exact subscriber_epochEnd_skip m ⟨e, t, time⟩ (by rw [hday, hprod]; exact h)
  · refine ⟨m.reset, [.send m, .print time m], ?_, ?_, rfl, rfl, rfl, rfl, rfl, rfl⟩
    · exact subscriber_epochEnd_flush m ⟨e, t, time⟩ (by rw [hday, hprod]; exact h)
    · simp [published]

/-- Witness for C2: epoch 24 at a time step of one hour is a day boundary, epoch 25 is not. -/
theorem metrics_epoch_end_witness :
    NewEventSubscriber ⟨3, 1, 5, 2, 7⟩
        { Type_ := EpochEnd, Payload := .epochEnd { Epoch := 25, TimeStep := 3600000, Time := 0 } } =
      .ok (⟨3, 1, 5, 2, 7⟩, []) ∧
    (∃ m' effects,
      NewEventSubscriber ⟨3, 1, 5, 2, 7⟩
          { Type_ := EpochEnd, Payload := .epochEnd { Epoch := 24, TimeStep := 3600000, Time := 0 } } =
        .ok (m', effects) ∧
      published (.ok (m', effects)) = [⟨3, 1, 5, 2, 7⟩] ∧
      effects.head? = some (.send ⟨3, 1, 5, 2, 7⟩) ∧
      m'.NewInfections = 0 ∧ m'.NewRecoveries = 0 ∧
      m'.InfectedPopulation = 5 ∧ m'.InfectiousPopulation = 2 ∧ m'.ImmunePopulation = 7) :=
  ⟨(metrics_epoch_end ⟨3, 1, 5, 2, 7⟩ 25 3600000 0 (by decide) (by decide)).1 (by decide),
   (metrics_epoch_end ⟨3, 1, 5, 2, 7⟩ 24 3600000 0 (by decide) (by decide)).2 (by decide)⟩

/-- Counterexample to C2 as stated: at epoch 2^40 with a time step of one day the product
`epoch * time_step` is a multiple of 86,400,000, yet the subscriber leaves the counters as they
are and publishes nothing, because the `int64` product it tests has wrapped to
2455 * 2^50, which is not a multiple; and at epoch 4 with time step 2^62 the product 2^64 is not
a multiple of 86,400,000, yet the subscriber publishes a snapshot and resets, because the
`int64` product is 0. -/
theorem metrics_epoch_end_overflow :
    (86400000 : Int) ∣ 1099511627776 * 86400000 ∧
    mulInt64 1099511627776 86400000 = 2764084271298641920 ∧
    NewEventSubscriber ⟨3, 1, 5, 2, 7⟩
        { Type_ := EpochEnd,
          Payload := .epochEnd { Epoch := 1099511627776, TimeStep := 86400000, Time := 0 } } =
      .ok (⟨3, 1, 5, 2, 7⟩, []) ∧
    ¬ (86400000 : Int) ∣ 4 * 4611686018427387904 ∧
    mulInt64 4 4611686018427387904 = 0 ∧
    NewEventSubscriber ⟨3, 1, 5, 2, 7⟩
        { Type_ := EpochEnd,
          Payload := .epochEnd { Epoch := 4, TimeStep := 4611686018427387904, Time := 0 } } =
      .ok (⟨0, 0, 5, 2, 7⟩, [.send ⟨3, 1, 5, 2, 7⟩, .print 0 ⟨3, 1, 5, 2, 7⟩]) := by
  refine ⟨by decide, by decide, ?_, by decide, by decide, ?_⟩
  · exact subscriber_epochEnd_skip ⟨3, 1, 5, 2, 7⟩ ⟨1099511627776, 86400000, 0⟩ (by decide)
  · exact subscriber_epochEnd_flush ⟨3, 1, 5, 2, 7⟩ ⟨4, 4611686018427387904, 0⟩ (by decide)

/-! ## C3 -/

/-- C3: for a time step `t > 0` that divides 86,400,000 and an epoch `e ≥ 1` whose product with
`t` is representable in `int64`, the subscriber flushes on the `EpochEnd` event of epoch `e` if
and only if `e` is a multiple of `86,400,000 / t`; with `t = 3,600,000` it flushes exactly at
the epochs `24 * k`, `k ≥ 1`. -/
theorem metrics_flush_schedule (m : Metrics) (e t : Int) (time : Time)
    (ht : 0 < t) (hdiv : t ∣ 86400000) (he : 1 ≤ e) (hrep : e * t < 2 ^ 63) :
    (flushesAt m e t time ↔ (86400000 / t) ∣ e) ∧
    (t = 3600000 → (flushesAt m e t time ↔ ∃ k : Int, 1 ≤ k ∧ e = 24 * k)) := by
  have hday : dayMillis = 86400000 := by norm_num [dayMillis]
  have hprod : mulInt64 e t = e * t := by
    apply wrapInt64_of_inRange
    · have : 0 ≤ e * t := mul_nonneg (by omega) (by omega)
      omega
    · exact hrep
  have hq : (86400000 : Int) = (86400000 / t) * t := (Int.ediv_mul_cancel hdiv).symm
  have main : flushesAt m e t time ↔ (86400000 / t) ∣ e := by
    rw [flushesAt_iff, hprod, hday]
    conv_lhs => rw [hq]
    exact mul_dvd_mul_iff_right (by omega)
  refine ⟨main, fun h3 => ?_⟩
  rw [main, h3]
  have h24 : (86400000 : Int) / 3600000 = 24 := by norm_num
  rw [h24]
  constructor
  · rintro ⟨k, hk⟩
    exact ⟨k, by omega, hk⟩
  · rintro ⟨k, _, hk⟩
    exact ⟨k, hk⟩

/-- Witness for C3: a time step of one hour at epoch 48. -/
theorem metrics_flush_schedule_witness :
    (0 : Int) < 3600000 ∧ (3600000 : Int) ∣ 86400000 ∧ (1 : Int) ≤ 48 ∧
    (48 : Int) * 3600000 < 2 ^ 63 ∧
    (flushesAt Metrics.new 48 3600000 0 ↔ ((86400000 : Int) / 3600000) ∣ 48) ∧
    (flushesAt Metrics.new 48 3600000 0 ↔ ∃ k : Int, 1 ≤ k ∧ (48 : Int) = 24 * k) :=
  ⟨by decide, by decide, by decide, by decide,
   (metrics_flush_schedule Metrics.new 48 3600000 0
      (by decide) (by decide) (by decide) (by decide)).1,
   (metrics_flush_schedule Metrics.new 48 3600000 0
      (by decide) (by decide) (by decide) (by decide)).2 rfl⟩

/-! ## C4 -/

theorem tracks_set {pop : Population} {P : AgentState → Prop} [DecidablePred P]
    {F : Finset UUID} (h : tracks pop P F) (id : UUID) (s : AgentState) :
    ∃ F' : Finset UUID, tracks (pop.set id s) P F' ∧
      (F'.card : Int) = F.card + (if P s then 1 else 0) - (if P (pop id) then 1 else 0) := by
  by_cases hs : P s <;> by_cases ho : P (pop id)
  · refine ⟨F, fun id' => ?_, by simp [hs, ho]⟩
    by_cases e : id' = id
    · subst e; simp [Population.set, hs, (h id').2 ho]
    · simp [Population.set, e, h id']
  · have hid : id ∉ F := fun hm => ho ((h id).1 hm)
    refine ⟨insert id F, fun id' => ?_, ?_⟩
    · by_cases e : id' = id
      · subst e; simp [Population.set, hs]
      · simp [Population.set, e, h id']
    · rw [Finset.card_insert_of_not_mem hid]; simp [hs, ho]
  · have hid : id ∈ F := (h id).2 ho
    refine ⟨F.erase id, fun id' => ?_, ?_⟩
    · by_cases e : id' = id
      · subst e; simp [Population.set, hs]
      · simp [Population.set, e, h id']
    · have hpos : 1 ≤ F.card := Finset.card_pos.2 ⟨id, hid⟩
      rw [Finset.card_erase_of_mem hid]; simp [hs, ho]; omega
  · refine ⟨F, fun id' => ?_, by simp [hs, ho]⟩
    by_cases e : id' = id
    · subst e
      have hid : id' ∉ F := fun hm => ho ((h id').1 hm)
      simp [Population.set, hs, hid]
    · simp [Population.set, e, h id']

theorem counts_allSusceptible : Counts allSusceptible Metrics.new :=
  ⟨∅, ∅, ∅, by simp [tracks, allSusceptible, carriesInfection],
    by simp [tracks, allSusceptible], by simp [tracks, allSusceptible], rfl, rfl, rfl⟩

/-- One agent state update along the cycle keeps the three population counters equal to the
number of agents in the matching states. -/
theorem counts_stateUpdate {pop : Population} {m : Metrics} (h : Counts pop m) (event : Event)
    (p : AgentStateUpdatePayload) (hev : stateUpdateOf event = some p)
    (hnext : cycleNext (pop p.Id) = some p.State) :
    ∃ m', NewEventSubscriber m event = .ok (m', []) ∧ Counts (pop.set p.Id p.State) m' := by
  obtain ⟨A, B, C, hA, hB, hC, cA, cB, cC⟩ := h
  obtain ⟨A', hA', cA'⟩ := tracks_set hA p.Id p.State
  obtain ⟨B', hB', cB'⟩ := tracks_set hB p.Id p.State
  obtain ⟨C', hC', cC'⟩ := tracks_set hC p.Id p.State
  have hty : event.Type_ = AgentStateUpdate := by
    unfold stateUpdateOf at hev
    by_contra hne
    simp [hne] at hev
  have hpl : event.Payload = .agentStateUpdate p := by
    unfold stateUpdateOf at hev
    rw [if_pos hty] at hev
    cases hp : event.Payload <;> simp [hp] at hev
    rw [hev]
  have hne : ¬ AgentStateUpdate = EpochEnd := by decide
  cases hold : pop p.Id <;> rw [hold] at hnext cA' cB' cC' <;>
    simp only [cycleNext, Option.some.injEq] at hnext <;> try exact absurd hnext (by simp)
  all_goals
    rw [← hnext] at cA' cB' cC' hA' hB' hC' ⊢
    simp [carriesInfection] at cA' cB' cC'
    simp only [NewEventSubscriber, hty, hpl, hne, if_false, if_true, ← hnext]
    refine ⟨_, rfl, A', B', C', hA', hB', hC', ?_, ?_, ?_⟩ <;> simp only [] <;> omega

/-- An event that is not an agent state update leaves the three population counters alone. -/
theorem counts_otherEvent {pop : Population} {m : Metrics} (h : Counts pop m) (event : Event)
    (hev : stateUpdateOf event = none) :
    ∃ m' effects, NewEventSubscriber m event = .ok (m', effects) ∧ Counts pop m' := by
  have keep : ∀ m' : Metrics, m'.InfectedPopulation = m.InfectedPopulation →
      m'.InfectiousPopulation = m.InfectiousPopulation →
      m'.ImmunePopulation = m.ImmunePopulation → Counts pop m' := by
    intro m' h1 h2 h3
    obtain ⟨A, B, C, hA, hB, hC, cA, cB, cC⟩ := h
    exact ⟨A, B, C, hA, hB, hC, by rw [h1, cA], by rw [h2, cB], by rw [h3, cC]⟩
  unfold stateUpdateOf at hev
  unfold NewEventSubscriber
  by_cases h1 : event.Type_ = EpochEnd
  · rw [if_pos h1]
    cases hp : event.Payload with
    | epochEnd payload =>
      by_cases hz : goRem (mulInt64 payload.Epoch payload.TimeStep) dayMillis ≠ 0
      · exact ⟨m, [], by simp [hz], keep m rfl rfl rfl⟩
      · exact ⟨m.reset, [.send m, .print payload.Time m], by simp [hz], keep m.reset rfl rfl rfl⟩
    | _ => exact ⟨m, [], rfl, keep m rfl rfl rfl⟩
  · rw [if_neg h1]
    by_cases h2 : event.Type_ = AgentStateUpdate
    · rw [if_pos h2] at hev ⊢
      cases hp : event.Payload with
      | agentStateUpdate payload => simp [hp] at hev
      | _ => exact ⟨m, [], rfl, keep m rfl rfl rfl⟩
    · rw [if_neg h2]
      exact ⟨m, [], rfl, keep m rfl rfl rfl⟩

/-- Over a whole sequence generated by the state machine the subscriber never panics and the
population counters stay equal to the numbers of agents in the matching states. -/
theorem counts_run (events : List Event) :
    ∀ (pop : Population) (m : Metrics), Counts pop m → validFrom pop events = true →
      ∃ pop' m', runSubscriber m events = .ok m' ∧ Counts pop' m' := by
  induction events with
  | nil => intro pop m h _; exact ⟨pop, m, rfl, h⟩
  | cons event rest ih =>
    intro pop m h hv
    unfold validFrom at hv
    cases hev : stateUpdateOf event with
    | none =>
      rw [hev] at hv
      simp only at hv
      obtain ⟨m1, effects, hrun, h1⟩ := counts_otherEvent h event hev
      obtain ⟨pop', m', hrest, h'⟩ := ih pop m1 h1 hv
      exact ⟨pop', m', by simp only [runSubscriber, hrun]; exact hrest, h'⟩
    | some p =>
      rw [hev] at hv
      simp only [Bool.and_eq_true, decide_eq_true_eq] at hv
      obtain ⟨m1, hrun, h1⟩ := counts_stateUpdate h event p hev hv.1
      obtain ⟨pop', m', hrest, h'⟩ := ih _ m1 h1 hv.2
      exact ⟨pop', m', by simp only [runSubscriber, hrun]; exact hrest, h'⟩

theorem validFrom_take (events : List Event) :
    ∀ (pop : Population) (k : Nat), validFrom pop events = true →
      validFrom pop (events.take k) = true := by
  induction events with
  | nil => intro pop k h; simpa using h
  | cons event rest ih =>
    intro pop k h
    cases k with
    | zero => simp [validFrom]
    | succ k =>
      rw [List.take_succ_cons]
      unfold validFrom at h ⊢
      cases hev : stateUpdateOf event with
      | none => rw [hev] at h; exact ih pop k h
      | some p =>
        rw [hev] at h
        simp only [Bool.and_eq_true, decide_eq_true_eq] at h ⊢
        exact ⟨h.1, ih _ k h.2⟩

/-- C4: for every sequence of events in which every agent starts Susceptible and every agent
state update moves its agent one step along the cycle Susceptible → Infected → Infectious →
Immune → Susceptible (agents interleaved at will, `EpochEnd` and other events anywhere in
between), after every initial segment of the sequence the aggregator, started from zero
counters, has not panicked and its InfectedPopulation and InfectiousPopulation are ≥ 0. -/
theorem metrics_populations_nonneg (events : List Event)
    (hvalid : validFrom allSusceptible events = true) (k : Nat) :
    ∃ m, runSubscriber Metrics.new (events.take k) = .ok m ∧
      0 ≤ m.InfectedPopulation ∧ 0 ≤ m.InfectiousPopulation := by
  obtain ⟨pop', m, hrun, A, B, C, _, _, _, cA, cB, _⟩ :=
    counts_run (events.take k) allSusceptible Metrics.new counts_allSusceptible
      (validFrom_take events allSusceptible k hvalid)
  exact ⟨m, hrun, by rw [cA]; exact Int.natCast_nonneg _, by rw [cB]; exact Int.natCast_nonneg _⟩

/-- Witness for C4: the sample sequence, after its first five events. -/
theorem metrics_populations_nonneg_witness :
    validFrom allSusceptible sampleEvents = true ∧
    ∃ m, runSubscriber Metrics.new (sampleEvents.take 5) = .ok m ∧
      0 ≤ m.InfectedPopulation ∧ 0 ≤ m.InfectiousPopulation :=
  ⟨by decide, metrics_populations_nonneg sampleEvents (by decide) 5⟩

/-! ## C5 -/

theorem totalCapacity_cons (space : Space) (rest : List Space) :
    totalCapacity (space :: rest) = space.capacity + totalCapacity rest := by
  simp [totalCapacity]

/-- With fuel for every unit of the remaining capacity the space loop comes back; every space
it built has a capacity of at least 1 and the capacities add up to the remaining capacity. -/
theorem createSpacesLoop_spec (kind : SpaceKind) (mu sigma : Nat) (rng : Sampler) (fuel : Nat) :
    ∀ (remaining : Int) (draw : Nat), remaining ≤ fuel →
      ∃ l, createSpacesLoop kind mu sigma rng fuel remaining draw = some l ∧
        (∀ s ∈ l, 1 ≤ s.capacity) ∧ totalCapacity l = max remaining 0 ∧
        (remaining ≤ 0 → l = []) := by
  induction fuel with
  | zero =>
    intro remaining draw h
    have h0 : ¬ remaining > 0 := by simpa using h
    exact ⟨[], by simp [createSpacesLoop, h0], by simp, by simp [totalCapacity]; omega,
      fun _ => rfl⟩
  | succ fuel ih =>
    intro remaining draw h
    by_cases hpos : remaining > 0
    · obtain ⟨c, hc, hc1, hc2⟩ : ∃ c : Int,
          c = (if max (rng.normalFloor mu sigma draw) 1 > remaining then remaining
               else max (rng.normalFloor mu sigma draw) 1) ∧ 1 ≤ c ∧ c ≤ remaining := by
        refine ⟨_, rfl, ?_, ?_⟩
        · split <;> omega
        · split <;> omega
      obtain ⟨l, hl, hcap, hsum, _⟩ := ih (remaining - c) (draw + 2) (by push_cast at h; omega)
      refine ⟨{ kind := kind, capacity := c, jurisdiction := rng.jurisdiction (draw + 1) } :: l,
        ?_, ?_, ?_, fun h0 => absurd hpos (by omega)⟩
      · simp only [createSpacesLoop, if_pos hpos, ← hc, hl, Option.map_some']
      · intro s hs
        rcases List.mem_cons.1 hs with rfl | hs
        · exact hc1
        · exact hcap s hs
      · rw [totalCapacity_cons, hsum]
        simp only []
        omega
    · exact ⟨[], by simp [createSpacesLoop, hpos], by simp, by simp [totalCapacity]; omega,
        fun _ => rfl⟩

/-- C5: for every target capacity and every sequence of sampled sizes, each of
`createHouseholds`, `createOffices`, `createSocialSpaces` and `createHealthCareSpaces` comes
back with a list of spaces in which every capacity is ≥ 1 and whose capacities sum to the
target when the target is ≥ 0, the empty list when the target is ≤ 0; `NewSimulation` calls
them with the targets NumAgents for households and offices, NumAgents/100 for social spaces and
NumAgents/1000*5 for healthcare spaces (Go's integer division) and hands the four lists to
`createAgents`, so that for NumAgents ≥ 0 their capacities sum to exactly these targets. -/
theorem createSpaces_capacities (total_capacity : Int) (rng : Sampler) (config : Config)
    (jurisdictions : List Jurisdiction) (now : Time) (rng1 rng2 rng3 rng4 rng5 : Sampler) :
    (∀ create ∈ [createHouseholds, createOffices, createSocialSpaces, createHealthCareSpaces],
      ∃ spaces, create total_capacity rng = some spaces ∧
        (∀ s ∈ spaces, 1 ≤ s.capacity) ∧
        (0 ≤ total_capacity → totalCapacity spaces = total_capacity) ∧
        (total_capacity ≤ 0 → spaces = [])) ∧
    (∃ households offices social_spaces healthcare_spaces,
      createHouseholds config.NumAgents rng1 = some households ∧
      createOffices config.NumAgents rng2 = some offices ∧
      createSocialSpaces (Int.tdiv config.NumAgents 100) rng3 = some social_spaces ∧
      createHealthCareSpaces (Int.tdiv config.NumAgents 1000 * 5) rng4 =
        some healthcare_spaces ∧
      NewSimulation config jurisdictions now rng1 rng2 rng3 rng4 rng5 =
        some ((createAgents config.NumAgents households offices social_spaces
            healthcare_spaces rng5).map fun agents =>
          { id := config.Id, pathogen := config.Pathogen, start_time := now, epoch := 0,
            time_step := config.TimeStep, agents := agents, jurisdictions := jurisdictions,
            households := households, offices := offices, social_spaces := social_spaces,
            healthcare_spaces := healthcare_spaces, is_paused := false,
            should_quit := false, commands := [], logger := [] }) ∧
      (0 ≤ config.NumAgents →
        totalCapacity households = config.NumAgents ∧
        totalCapacity offices = config.NumAgents ∧
        totalCapacity social_spaces = config.NumAgents / 100 ∧
        totalCapacity healthcare_spaces = config.NumAgents / 1000 * 5)) := by
  have key : ∀ (kind : SpaceKind) (mu sigma : Nat) (total : Int) (r : Sampler),
      ∃ spaces, createSpacesLoop kind mu sigma r total.toNat total 0 = some spaces ∧
        (∀ s ∈ spaces, 1 ≤ s.capacity) ∧
        (0 ≤ total → totalCapacity spaces = total) ∧ (total ≤ 0 → spaces = []) := by
    intro kind mu sigma total r
    obtain ⟨l, hl, hcap, hsum, hnil⟩ :=
      createSpacesLoop_spec kind mu sigma r total.toNat total 0 (by omega)
    exact ⟨l, hl, hcap, fun h => by rw [hsum]; omega, hnil⟩
  refine ⟨?_, ?_⟩
  · intro create hmem
    simp only [List.mem_cons, List.mem_singleton, List.not_mem_nil, or_false] at hmem
    rcases hmem with rfl | rfl | rfl | rfl
    · exact key .Household 4 1 total_capacity rng
    · exact key .Office 10 2 total_capacity rng
    · exact key .Social 10 2 total_capacity rng
    · exact key .Healthcare 173 25 total_capacity rng
  · obtain ⟨hs, e1, -, hsum1, -⟩ := key .Household 4 1 config.NumAgents rng1
    obtain ⟨os, e2, -, hsum2, -⟩ := key .Office 10 2 config.NumAgents rng2
    obtain ⟨ss, e3, -, hsum3, -⟩ := key .Social 10 2 (Int.tdiv config.NumAgents 100) rng3
    obtain ⟨cs, e4, -, hsum4, -⟩ :=
      key .Healthcare 173 25 (Int.tdiv config.NumAgents 1000 * 5) rng4
    have c1 : createHouseholds config.NumAgents rng1 = some hs := e1
    have c2 : createOffices config.NumAgents rng2 = some os := e2
    have c3 : createSocialSpaces (Int.tdiv config.NumAgents 100) rng3 = some ss := e3
    have c4 : createHealthCareSpaces (Int.tdiv config.NumAgents 1000 * 5) rng4 = some cs := e4
    refine ⟨hs, os, ss, cs, c1, c2, c3, c4, ?_, fun hn => ?_⟩
    · simp only [NewSimulation, goDiv, c1, c2, c3, c4]
    · have d1 : Int.tdiv config.NumAgents 100 = config.NumAgents / 100 :=
        Int.tdiv_eq_ediv hn (by decide)
      have d2 : Int.tdiv config.NumAgents 1000 = config.NumAgents / 1000 :=
        Int.tdiv_eq_ediv hn (by decide)
      rw [d1] at hsum3
      rw [d2] at hsum4
      exact ⟨hsum1 hn, hsum2 hn, hsum3 (by omega), hsum4 (by omega)⟩

/-- Witness for C5: a target of 23 for the households with every sample flooring to 4, and the
four lists of a simulation of 2500 agents. -/
theorem createSpaces_capacities_witness :
    (∃ spaces, createHouseholds 23 (constantSampler 4) = some spaces ∧
      (∀ s ∈ spaces, 1 ≤ s.capacity) ∧ totalCapacity spaces = 23) ∧
    (∃ households offices social_spaces healthcare_spaces,
      createHouseholds 2500 (constantSampler 4) = some households ∧
      createOffices 2500 (constantSampler 10) = some offices ∧
      createSocialSpaces 25 (constantSampler 10) = some social_spaces ∧
      createHealthCareSpaces 10 (constantSampler 173) = some healthcare_spaces ∧
      totalCapacity households = 2500 ∧ totalCapacity offices = 2500 ∧
      totalCapacity social_spaces = 25 ∧ totalCapacity healthcare_spaces = 10) := by
  have h := createSpaces_capacities 23 (constantSampler 4) ⟨1, ⟨1, 2, 3, 4⟩, 2500, 3600000⟩ [] 0
    (constantSampler 4) (constantSampler 10) (constantSampler 10) (constantSampler 173)
    (constantSampler 5)
  obtain ⟨spaces, h1, h2, h3, -⟩ := h.1 createHouseholds (by simp)
  obtain ⟨hs, os, ss, cs, c1, c2, c3, c4, -, hsum⟩ := h.2
  obtain ⟨s1, s2, s3, s4⟩ := hsum (by decide)
  exact ⟨⟨spaces, h1, h2, h3 (by decide)⟩, hs, os, ss, cs, c1, c2, c3, c4, s1, s2, s3, s4⟩

/-! ## C6 -/

/-- The allocation loop, entered at the space `h` (position `pre.length`) with `alloc` agents
already laid into it, lays the agents into `h` until it is full and then into the spaces after
it, in order: it follows the round-robin layout and never reads outside the slice. -/
theorem allocateLoop_spec (assign : Agent → Nat → Agent) (agents : List Agent) :
    ∀ (pre : List Space) (h : Space) (post : List Space) (alloc : Int),
      0 ≤ alloc → alloc < h.capacity → (∀ s ∈ post, 1 ≤ s.capacity) →
      (agents.length : Int) = h.capacity - alloc + totalCapacity post →
      allocateLoop assign (pre ++ h :: post) agents pre.length alloc =
        .ok (List.zipWith assign agents
          (List.replicate (h.capacity - alloc).toNat pre.length ++
            roundRobin (pre.length + 1) post)) := by
  induction agents with
  | nil => intros; simp [allocateLoop]
  | cons agent rest ih =>
    intro pre h post alloc h0 h1 hpost hlen
    have hget : (pre ++ h :: post)[pre.length]? = some h := by
      rw [List.getElem?_append_right (le_refl _)]
      simp
    have hrep : List.replicate (h.capacity - alloc).toNat pre.length =
        pre.length :: List.replicate (h.capacity - (alloc + 1)).toNat pre.length := by
      have : (h.capacity - alloc).toNat = (h.capacity - (alloc + 1)).toNat + 1 := by omega
      rw [this, List.replicate_succ]
    rw [hrep]
    simp only [List.cons_append, List.zipWith_cons_cons, allocateLoop, hget]
    simp only [List.length_cons, Nat.cast_add, Nat.cast_one] at hlen
    by_cases heq : alloc + 1 = h.capacity
    · have hz : (h.capacity - (alloc + 1)).toNat = 0 := by omega
      rw [if_pos heq, hz]
      simp only [List.replicate_zero, List.nil_append]
      cases post with
      | nil =>
        have hrest : rest = [] := by
          apply List.eq_nil_of_length_eq_zero
          simp [totalCapacity] at hlen
          omega
        subst hrest
        simp [allocateLoop, Except.map]
      | cons h2 post2 =>
        have h2pos : 1 ≤ h2.capacity := hpost h2 (List.mem_cons_self _ _)
        have hih := ih (pre ++ [h]) h2 post2 0 (le_refl 0) (by omega)
          (fun s hs => hpost s (List.mem_cons_of_mem _ hs))
          (by rw [totalCapacity_cons] at hlen; omega)
        simp only [List.append_assoc, List.singleton_append, List.length_append,
          List.length_singleton, sub_zero] at hih
        rw [hih]
        simp [Except.map, roundRobin]
    · rw [if_neg heq]
      have hih := ih pre h post (alloc + 1) (by omega) (by omega) hpost (by omega)
      rw [hih]
      simp [Except.map]

theorem roundRobin_length (spaces : List Space) :
    ∀ start : Nat, (∀ s ∈ spaces, 1 ≤ s.capacity) →
      ((roundRobin start spaces).length : Int) = totalCapacity spaces := by
  induction spaces with
  | nil => intro _ _; simp [roundRobin, totalCapacity]
  | cons space rest ih =>
    intro start h
    have h1 : 1 ≤ space.capacity := h space (List.mem_cons_self _ _)
    have h2 := ih (start + 1) fun s hs => h s (List.mem_cons_of_mem _ hs)
    rw [totalCapacity_cons]
    simp only [roundRobin, List.length_append, List.length_replicate, Nat.cast_add]
    omega

/-- From the start, over spaces of capacity ≥ 1 whose capacities sum to the number of agents,
the allocation loop returns the round-robin layout. -/
theorem allocateLoop_roundRobin (assign : Agent → Nat → Agent) (spaces : List Space)
    (agents : List Agent) (hcap : ∀ s ∈ spaces, 1 ≤ s.capacity)
    (hsum : totalCapacity spaces = agents.length) :
    allocateLoop assign spaces agents 0 0 =
      .ok (List.zipWith assign agents (roundRobin 0 spaces)) := by
  cases spaces with
  | nil =>
    have : agents = [] := by
      apply List.eq_nil_of_length_eq_zero
      simp [totalCapacity] at hsum
      omega
    subst this
    simp [allocateLoop]
  | cons h post =>
    have h1 : 1 ≤ h.capacity := hcap h (List.mem_cons_self _ _)
    have hspec := allocateLoop_spec assign agents [] h post 0 (le_refl 0) (by omega)
      (fun s hs => hcap s (List.mem_cons_of_mem _ hs))
      (by rw [totalCapacity_cons] at hsum; omega)
    simpa [roundRobin] using hspec

theorem roundRobin_range (spaces : List Space) :
    ∀ (start x : Nat), x ∈ roundRobin start spaces → start ≤ x ∧ x < start + spaces.length := by
  induction spaces with
  | nil => intro _ _ h; simp [roundRobin] at h
  | cons space rest ih =>
    intro start x h
    simp only [roundRobin, List.mem_append, List.mem_replicate] at h
    rcases h with ⟨_, rfl⟩ | h
    · simp
    · have := ih (start + 1) x h
      simp only [List.length_cons]
      omega

/-- The round-robin layout names the space at position `start + j` as often as its capacity. -/
theorem roundRobin_count (spaces : List Space) :
    ∀ (start j : Nat) (space : Space), spaces[j]? = some space →
      (roundRobin start spaces).count (start + j) = space.capacity.toNat := by
  induction spaces with
  | nil => intro _ _ _ h; simp at h
  | cons first rest ih =>
    intro start j space h
    simp only [roundRobin, List.count_append]
    cases j with
    | zero =>
      simp only [List.getElem?_cons_zero, Option.some.injEq] at h
      subst h
      have hnone : (roundRobin (start + 1) rest).count start = 0 := by
        apply List.count_eq_zero_of_not_mem
        intro hm
        have := roundRobin_range rest (start + 1) start hm
        omega
      simp [hnone]
    | succ j =>
      rw [List.getElem?_cons_succ] at h
      have hrest := ih (start + 1) j space h
      have hne : start ≠ start + (j + 1) := by omega
      have hrep : (List.replicate first.capacity.toNat start).count (start + (j + 1)) = 0 := by
        apply List.count_eq_zero_of_not_mem
        intro hm
        exact hne (List.eq_of_mem_replicate hm).symm
      rw [hrep, zero_add]
      have : start + (j + 1) = start + 1 + j := by omega
      rw [this]
      exact hrest

theorem householdMembers_assignHousehold (k0 : Nat) (agents : List Agent) :
    ∀ ks : List Nat, agents.length = ks.length →
      (householdMembers (List.zipWith assignHousehold agents ks) k0).length = ks.count k0 := by
  induction agents with
  | nil => intro ks h; cases ks <;> simp_all [householdMembers]
  | cons agent rest ih =>
    intro ks h
    cases ks with
    | nil => simp at h
    | cons k ks =>
      have hrest := ih ks (by simpa using h)
      simp only [householdMembers] at hrest
      by_cases hk : k = k0
      · subst hk
        simp [householdMembers, assignHousehold, List.filter_cons, hrest]
      · have hk' : ¬ k0 = k := fun e => hk e.symm
        simp [householdMembers, assignHousehold, List.filter_cons, hrest, hk,
          List.count_cons, hk']

theorem officeMembers_assignOffice (j0 : Nat) (agents : List Agent) :
    ∀ js : List Nat, agents.length = js.length →
      (officeMembers (List.zipWith assignOffice agents js) j0).length = js.count j0 := by
  induction agents with
  | nil => intro js h; cases js <;> simp_all [officeMembers]
  | cons agent rest ih =>
    intro js h
    cases js with
    | nil => simp at h
    | cons j js =>
      have hrest := ih js (by simpa using h)
      simp only [officeMembers] at hrest
      by_cases hj : j = j0
      · subst hj
        simp [officeMembers, assignOffice, List.filter_cons, hrest]
      · have hj' : ¬ j0 = j := fun e => hj e.symm
        simp [officeMembers, assignOffice, List.filter_cons, hrest, hj, List.count_cons, hj']

/-- The office loop does not touch the household of an agent. -/
theorem householdMembers_assignOffice (k0 : Nat) (agents : List Agent) :
    ∀ js : List Nat, agents.length = js.length →
      (householdMembers (List.zipWith assignOffice agents js) k0).length =
        (householdMembers agents k0).length := by
  induction agents with
  | nil => intro js _; cases js <;> simp [householdMembers]
  | cons agent rest ih =>
    intro js h
    cases js with
    | nil => simp at h
    | cons j js =>
      have hrest := ih js (by simpa using h)
      simp only [householdMembers] at hrest
      by_cases hk : agent.household = some k0
      · simp [householdMembers, assignOffice, List.filter_cons, hrest, hk]
      · simp [householdMembers, assignOffice, List.filter_cons, hrest, hk]

theorem mem_zipWith_assign (assign : Agent → Nat → Agent) (agents : List Agent) :
    ∀ (ks : List Nat) (a : Agent), a ∈ List.zipWith assign agents ks →
      ∃ a0 ∈ agents, ∃ k ∈ ks, a = assign a0 k := by
  induction agents with
  | nil => intro ks a h; simp at h
  | cons agent rest ih =>
    intro ks a h
    cases ks with
    | nil => simp at h
    | cons k ks =>
      simp only [List.zipWith_cons_cons, List.mem_cons] at h
      rcases h with rfl | h
      · exact ⟨agent, List.mem_cons_self _ _, k, List.mem_cons_self _ _, rfl⟩
      · obtain ⟨a0, ha0, k', hk', e⟩ := ih ks a h
        exact ⟨a0, List.mem_cons_of_mem _ ha0, k', List.mem_cons_of_mem _ hk', e⟩

theorem map_id_zipWith_assign (assign : Agent → Nat → Agent)
    (hid : ∀ a k, (assign a k).id = a.id) (agents : List Agent) :
    ∀ ks : List Nat, agents.length = ks.length →
      (List.zipWith assign agents ks).map (·.id) = agents.map (·.id) := by
  induction agents with
  | nil => intro ks _; simp
  | cons agent rest ih =>
    intro ks h
    cases ks with
    | nil => simp at h
    | cons k ks => simp [hid, ih ks (by simpa using h)]

theorem buildAgentsLoop_length (social_spaces healthcare_spaces : List Space) (rng : Sampler)
    (count : Nat) :
    ∀ (draw : Nat) (built : List Agent),
      buildAgentsLoop social_spaces healthcare_spaces rng count draw = .ok built →
        built.length = count := by
  induction count with
  | zero =>
    intro draw built h
    simp only [buildAgentsLoop, Except.ok.injEq] at h
    rw [← h]; rfl
  | succ count ih =>
    intro draw built h
    simp only [buildAgentsLoop] at h
    split at h
    · cases h
    · split at h
      · cases h
      · cases hrest : buildAgentsLoop social_spaces healthcare_spaces rng count _ with
        | error msg => rw [hrest] at h; cases h
        | ok restAgents =>
          rw [hrest] at h
          simp only [Except.map, Except.ok.injEq] at h
          rw [← h, List.length_cons, ih _ _ hrest]

theorem buildAgents_length (social_spaces healthcare_spaces : List Space) (rng : Sampler)
    (count : Nat) (draw : Nat) (built : List Agent)
    (h : buildAgents social_spaces healthcare_spaces rng count draw = .ok built) :
    built.length = count := by
  unfold buildAgents at h
  split at h
  · cases h
  · exact buildAgentsLoop_length _ _ _ _ _ _ h

/-- C6: for every agent count ≥ 0 and all household and office lists whose capacities are each
≥ 1 and sum to the count, the two allocation loops of `createAgents`, run on the agents the
first loop built, never read outside either list (the call returns); they keep the agents, in
order; every agent gets one household and one office, both in the lists, and its location is its
household; and the number of agents with a given household, or a given office, is equal to the
capacity of that space. -/
theorem createAgents_allocation (count : Int)
    (households offices social_spaces healthcare_spaces : List Space) (rng : Sampler)
    (built : List Agent) (hcount : 0 ≤ count)
    (hh : ∀ s ∈ households, 1 ≤ s.capacity) (hhsum : totalCapacity households = count)
    (ho : ∀ s ∈ offices, 1 ≤ s.capacity) (hosum : totalCapacity offices = count)
    (hbuilt : buildAgents social_spaces healthcare_spaces rng count.toNat 0 = .ok built) :
    ∃ agents,
      createAgents count households offices social_spaces healthcare_spaces rng = .ok agents ∧
      allocateAgents households offices built = .ok agents ∧
      (agents.length : Int) = count ∧
      agents.map (·.id) = built.map (·.id) ∧
      (∀ a ∈ agents, ∃ k j, k < households.length ∧ j < offices.length ∧
        a.household = some k ∧ a.office = some j ∧
        a.location = some { kind := .Household, index := k }) ∧
      (∀ (k : Nat) (household : Space), households[k]? = some household →
        ((householdMembers agents k).length : Int) = household.capacity) ∧
      (∀ (j : Nat) (office : Space), offices[j]? = some office →
        ((officeMembers agents j).length : Int) = office.capacity) := by
  have hlen : built.length = count.toNat := buildAgents_length _ _ _ _ _ _ hbuilt
  have hlenH : built.length = (roundRobin 0 households).length := by
    have := roundRobin_length households 0 hh
    omega
  have hlenO : built.length = (roundRobin 0 offices).length := by
    have := roundRobin_length offices 0 ho
    omega
  have hH : allocateHouseholds households built =
      .ok (List.zipWith assignHousehold built (roundRobin 0 households)) :=
    allocateLoop_roundRobin assignHousehold households built hh (by omega)
  have hlen1 : (List.zipWith assignHousehold built (roundRobin 0 households)).length =
      built.length := by
    rw [List.length_zipWith, ← hlenH, Nat.min_self]
  have hO : allocateOffices offices
        (List.zipWith assignHousehold built (roundRobin 0 households)) =
      .ok (List.zipWith assignOffice
        (List.zipWith assignHousehold built (roundRobin 0 households))
        (roundRobin 0 offices)) :=
    allocateLoop_roundRobin assignOffice offices _ ho (by rw [hlen1]; omega)
  have hAlloc : allocateAgents households offices built =
      .ok (List.zipWith assignOffice
        (List.zipWith assignHousehold built (roundRobin 0 households))
        (roundRobin 0 offices)) := by
    simp only [allocateAgents, hH, hO]
  have hCreate : createAgents count households offices social_spaces healthcare_spaces rng =
      allocateAgents households offices built := by
    simp only [createAgents, hbuilt, if_neg (not_lt.2 hcount)]
  refine ⟨_, hCreate.trans hAlloc, hAlloc, ?_, ?_, ?_, ?_, ?_⟩
  · rw [List.length_zipWith, hlen1, ← hlenO, Nat.min_self]
    omega
  · rw [map_id_zipWith_assign assignOffice (fun _ _ => rfl) _ _ (by rw [hlen1, hlenO]),
      map_id_zipWith_assign assignHousehold (fun _ _ => rfl) _ _ hlenH]
  · intro a ha
    obtain ⟨a1, ha1, j, hj, rfl⟩ := mem_zipWith_assign assignOffice _ _ a ha
    obtain ⟨a0, -, k, hk, rfl⟩ := mem_zipWith_assign assignHousehold _ _ a1 ha1
    have hk' := roundRobin_range households 0 k hk
    have hj' := roundRobin_range offices 0 j hj
    exact ⟨k, j, by omega, by omega, rfl, rfl, rfl⟩
  · intro k household hk
    rw [householdMembers_assignOffice k _ _ (by rw [hlen1, hlenO]),
      householdMembers_assignHousehold k built _ hlenH]
    have hc := roundRobin_count households 0 k household hk
    rw [Nat.zero_add] at hc
    have h1 : 1 ≤ household.capacity := hh household (List.getElem?_mem hk)
    rw [hc]
    omega
  · intro j office hj
    rw [officeMembers_assignOffice j _ _ (by rw [hlen1, hlenO])]
    have hc := roundRobin_count offices 0 j office hj
    rw [Nat.zero_add] at hc
    have h1 : 1 ≤ office.capacity := ho office (List.getElem?_mem hj)
    rw [hc]
    omega

/-- Witness for C6: 23 agents, households of capacities 4, 4, 4, 4, 4, 3 and offices of
capacities 10, 10, 3. -/
theorem createAgents_allocation_witness :
    ∃ agents,
      createAgents 23 sampleHouseholds sampleOffices sampleSocialSpaces sampleHealthcareSpaces
        (constantSampler 4) = .ok agents ∧
      allocateAgents sampleHouseholds sampleOffices sampleBuilt = .ok agents ∧
      (agents.length : Int) = 23 ∧
      agents.map (·.id) = sampleBuilt.map (·.id) ∧
      (∀ a ∈ agents, ∃ k j, k < sampleHouseholds.length ∧ j < sampleOffices.length ∧
        a.household = some k ∧ a.office = some j ∧
        a.location = some { kind := .Household, index := k }) ∧
      (∀ (k : Nat) (household : Space), sampleHouseholds[k]? = some household →
        ((householdMembers agents k).length : Int) = household.capacity) ∧
      (∀ (j : Nat) (office : Space), sampleOffices[j]? = some office →
        ((officeMembers agents j).length : Int) = office.capacity) :=
  createAgents_allocation 23 sampleHouseholds sampleOffices sampleSocialSpaces
    sampleHealthcareSpaces (constantSampler 4) sampleBuilt (by decide) (by decide) (by decide)
    (by decide) (by decide) rfl

/-! ## C7 to C10: `processCommand` -/

theorem applyToFirstMatch_none (payload : ApplyJurisdictionPolicyPayload)
    (jurisdictions : List Jurisdiction)
    (h : ∀ jur ∈ jurisdictions, jur.id ≠ payload.JurisdictionId) :
    applyToFirstMatch payload jurisdictions = none := by
  induction jurisdictions with
  | nil => rfl
  | cons jur rest ih =>
    have h1 : jur.id ≠ payload.JurisdictionId := h jur (List.mem_cons_self _ _)
    have h2 := ih fun j hj => h j (List.mem_cons_of_mem _ hj)
    simp [applyToFirstMatch, h1, h2]

/-- When some jurisdiction has the payload's id, the loop rewrites the first such jurisdiction,
at position `i`, and nothing else, and emits the policy update of that jurisdiction. -/
theorem applyToFirstMatch_some (payload : ApplyJurisdictionPolicyPayload)
    (jurisdictions : List Jurisdiction)
    (h : ∃ jur ∈ jurisdictions, jur.id = payload.JurisdictionId) :
    ∃ i jur, jurisdictions[i]? = some jur ∧ jur.id = payload.JurisdictionId ∧
      (∀ j other, j < i → jurisdictions[j]? = some other → other.id ≠ payload.JurisdictionId) ∧
      applyToFirstMatch payload jurisdictions =
        some (jurisdictions.set i { jur with policy := payload.Policy },
              (jur.applyPolicy payload.Policy).2) := by
  induction jurisdictions with
  | nil => obtain ⟨jur, hmem, _⟩ := h; cases hmem
  | cons first rest ih =>
    by_cases hid : first.id = payload.JurisdictionId
    · refine ⟨0, first, by simp, hid, fun j _ hj => absurd hj (Nat.not_lt_zero j), ?_⟩
      simp [applyToFirstMatch, hid, Jurisdiction.applyPolicy]
    · have hrest : ∃ jur ∈ rest, jur.id = payload.JurisdictionId := by
        obtain ⟨jur, hmem, hjur⟩ := h
        rcases List.mem_cons.1 hmem with rfl | hmem
        · exact absurd hjur hid
        · exact ⟨jur, hmem, hjur⟩
      obtain ⟨i, jur, hget, hjur, hfirst, happ⟩ := ih hrest
      refine ⟨i + 1, jur, by simpa using hget, hjur, ?_, ?_⟩
      · intro j other hj hother
        cases j with
        | zero =>
          simp only [List.getElem?_cons_zero, Option.some.injEq] at hother
          rw [← hother]; exact hid
        | succ j =>
          rw [List.getElem?_cons_succ] at hother
          exact hfirst j other (by omega) hother
      · simp [applyToFirstMatch, hid, happ]

/-- What the switch of `processCommand` does to the log, for a command that does not make it
panic: nothing, or one `PolicyUpdate` when a jurisdiction took the policy. -/
theorem switchCommand_spec (sim : Simulation) (command : Command)
    (hptr : ¬ (command.Type_ = .ApplyJurisdictionPolicy ∧ command.Payload = .nilPolicyPointer)) :
    ∃ sim1 updates, sim.switchCommand command = .ok sim1 ∧
      sim1.logger = sim.logger ++ updates ∧ sim1.epoch = sim.epoch ∧
      ((updates = [] ∧ matchesJurisdiction sim command = false) ∨
       (matchesJurisdiction sim command = true ∧
          ∃ update, updates = [{ Type_ := PolicyUpdate, Payload := .policyUpdate update }])) := by
  obtain ⟨ty, pl⟩ := command
  have plain : ∀ s : Simulation, s.logger = sim.logger → s.epoch = sim.epoch →
      matchesJurisdiction sim ⟨ty, pl⟩ = false →
      ∃ sim1 updates, (Except.ok s : Except String Simulation) = .ok sim1 ∧
        sim1.logger = sim.logger ++ updates ∧ sim1.epoch = sim.epoch ∧
        ((updates = [] ∧ matchesJurisdiction sim ⟨ty, pl⟩ = false) ∨
         (matchesJurisdiction sim ⟨ty, pl⟩ = true ∧
            ∃ update, updates = [{ Type_ := PolicyUpdate, Payload := .policyUpdate update }])) :=
    fun s hlog hep hno => ⟨s, [], rfl, by simp [hlog], hep, Or.inl ⟨rfl, hno⟩⟩
  cases ty with
  | Quit => exact plain _ rfl rfl rfl
  | Pause => exact plain _ rfl rfl rfl
  | Resume => exact plain _ rfl rfl rfl
  | other tag => exact plain _ rfl rfl rfl
  | ApplyJurisdictionPolicy =>
    cases pl with
    | nil => exact plain _ rfl rfl rfl
    | other tag => exact plain _ rfl rfl rfl
    | nilPolicyPointer => exact absurd ⟨rfl, rfl⟩ hptr
    | policy payload =>
      by_cases hm : ∃ jur ∈ sim.jurisdictions, jur.id = payload.JurisdictionId
      · obtain ⟨i, jur, _, _, _, happ⟩ := applyToFirstMatch_some payload sim.jurisdictions hm
        have hrun : sim.switchCommand ⟨.ApplyJurisdictionPolicy, .policy payload⟩ =
            .ok { sim with
                  jurisdictions := sim.jurisdictions.set i { jur with policy := payload.Policy },
                  logger := sim.logger ++ [(jur.applyPolicy payload.Policy).2] } := by
          simp only [Simulation.switchCommand, Simulation.applyJurisdictionPolicy, happ,
            Logger.Log]
        have hmatch : matchesJurisdiction sim ⟨.ApplyJurisdictionPolicy, .policy payload⟩ =
            true := by
          simpa [matchesJurisdiction] using hm
        rw [hrun]
        exact ⟨_, [(jur.applyPolicy payload.Policy).2], rfl, rfl, rfl,
          Or.inr ⟨hmatch, _, rfl⟩⟩
      · have hnone := applyToFirstMatch_none payload sim.jurisdictions
          (fun jur hj hid => hm ⟨jur, hj, hid⟩)
        have hrun : sim.switchCommand ⟨.ApplyJurisdictionPolicy, .policy payload⟩ = .ok sim := by
          simp only [Simulation.switchCommand, Simulation.applyJurisdictionPolicy, hnone]
        have hmatch : matchesJurisdiction sim ⟨.ApplyJurisdictionPolicy, .policy payload⟩ =
            false := by
          rw [Bool.eq_false_iff]
          intro ht
          apply hm
          simpa [matchesJurisdiction] using ht
        rw [hrun]
        exact plain sim rfl rfl hmatch

theorem processCommand_of_switch (sim : Simulation) (command : Command) (sim1 : Simulation)
    (h : sim.switchCommand command = .ok sim1) :
    sim.processCommand command =
      .ok { sim1 with logger := sim1.logger ++ [commandProcessedEvent sim1 command] } := by
  simp only [Simulation.processCommand, h, Logger.Log]

/-- C7, as amended: for every simulation state and every command other than an
`ApplyJurisdictionPolicy` command carrying a nil `*ApplyJurisdictionPolicyPayload`,
`processCommand` returns, the last event it logs is the `CommandProcessed` event carrying that
command and the simulation's current epoch, the epoch counter is unchanged, and the only other
event it logs, before that one, is one `PolicyUpdate`, logged exactly when the command is an
`ApplyJurisdictionPolicy` with a well-typed payload whose id is the id of a jurisdiction. -/
theorem processCommand_log (sim : Simulation) (command : Command)
    (hptr : ¬ (command.Type_ = .ApplyJurisdictionPolicy ∧ command.Payload = .nilPolicyPointer)) :
    ∃ sim' updates, sim.processCommand command = .ok sim' ∧
      sim'.logger = sim.logger ++ updates ++
        [{ Type_ := CommandProcessed,
           Payload := .commandProcessed { Epoch := sim.epoch, Command := command } }] ∧
      sim'.epoch = sim.epoch ∧
      ((updates = [] ∧ matchesJurisdiction sim command = false) ∨
       (matchesJurisdiction sim command = true ∧
          ∃ update, updates = [{ Type_ := PolicyUpdate, Payload := .policyUpdate update }])) := by
  obtain ⟨sim1, updates, hswitch, hlog, hep, hupd⟩ := switchCommand_spec sim command hptr
  rw [processCommand_of_switch sim command sim1 hswitch]
  exact ⟨_, updates, rfl, by simp [commandProcessedEvent, hlog, hep], hep, hupd⟩

/-- Witness for C7: a policy command for the jurisdiction id "E2" on the sample simulation. -/
theorem processCommand_log_witness :
    ∃ sim' updates,
      sampleSimulation.processCommand ⟨.ApplyJurisdictionPolicy, .policy ⟨"E2", samplePolicy⟩⟩ =
        .ok sim' ∧
      sim'.logger = sampleSimulation.logger ++ updates ++
        [{ Type_ := CommandProcessed,
           Payload := .commandProcessed
             { Epoch := 5,
               Command := ⟨.ApplyJurisdictionPolicy, .policy ⟨"E2", samplePolicy⟩⟩ } }] ∧
      sim'.epoch = 5 ∧
      ((updates = [] ∧ matchesJurisdiction sampleSimulation
            ⟨.ApplyJurisdictionPolicy, .policy ⟨"E2", samplePolicy⟩⟩ = false) ∨
       (matchesJurisdiction sampleSimulation
            ⟨.ApplyJurisdictionPolicy, .policy ⟨"E2", samplePolicy⟩⟩ = true ∧
          ∃ update, updates = [{ Type_ := PolicyUpdate, Payload := .policyUpdate update }])) :=
  processCommand_log sampleSimulation
    ⟨.ApplyJurisdictionPolicy, .policy ⟨"E2", samplePolicy⟩⟩ (by simp)

/-- C7 as stated fails: a policy command whose id matches a jurisdiction logs two events, the
`PolicyUpdate` of the jurisdiction and then `CommandProcessed`, so the log does not grow by
exactly one event; and a policy command carrying a nil payload pointer logs nothing, because
`processCommand` panics. -/
theorem processCommand_not_one_event :
    (sampleSimulation.processCommand
        ⟨.ApplyJurisdictionPolicy, .policy ⟨"E2", samplePolicy⟩⟩).map
      (fun sim => sim.logger.map (·.Type_)) =
        .ok (sampleSimulation.logger.map (·.Type_) ++ [PolicyUpdate, CommandProcessed]) ∧
    (¬ ∃ sim' event,
        sampleSimulation.processCommand
          ⟨.ApplyJurisdictionPolicy, .policy ⟨"E2", samplePolicy⟩⟩ = .ok sim' ∧
        sim'.logger = sampleSimulation.logger ++ [event]) ∧
    sampleSimulation.processCommand ⟨.ApplyJurisdictionPolicy, .nilPolicyPointer⟩ =
      .error "invalid memory address or nil pointer dereference" := by
  refine ⟨rfl, ?_, rfl⟩
  rintro ⟨sim', event, hrun, hlog⟩
  have hlen : (sampleSimulation.processCommand
      ⟨.ApplyJurisdictionPolicy, .policy ⟨"E2", samplePolicy⟩⟩).map
        (fun sim => sim.logger.length) = .ok 2 := rfl
  rw [hrun] at hlen
  simp only [Except.map, Except.ok.injEq] at hlen
  rw [hlog] at hlen
  simp [sampleSimulation] at hlen

/-! ## C8 -/

/-- C8: an `ApplyJurisdictionPolicy` command whose jurisdiction id is the id of no jurisdiction
of the simulation leaves the jurisdictions, hence every policy, and the pause and quit flags as
they were, and logs exactly one event, the `CommandProcessed` event of the command. -/
theorem processCommand_unknown_jurisdiction (sim : Simulation)
    (payload : ApplyJurisdictionPolicyPayload)
    (h : ∀ jur ∈ sim.jurisdictions, jur.id ≠ payload.JurisdictionId) :
    ∃ sim', sim.processCommand ⟨.ApplyJurisdictionPolicy, .policy payload⟩ = .ok sim' ∧
      sim'.jurisdictions = sim.jurisdictions ∧
      sim'.is_paused = sim.is_paused ∧ sim'.should_quit = sim.should_quit ∧
      sim'.logger = sim.logger ++
        [{ Type_ := CommandProcessed,
           Payload := .commandProcessed
             { Epoch := sim.epoch,
               Command := ⟨.ApplyJurisdictionPolicy, .policy payload⟩ } }] := by
  have hswitch : sim.switchCommand ⟨.ApplyJurisdictionPolicy, .policy payload⟩ = .ok sim := by
    simp only [Simulation.switchCommand, Simulation.applyJurisdictionPolicy,
      applyToFirstMatch_none payload sim.jurisdictions h]
  rw [processCommand_of_switch sim _ sim hswitch]
  exact ⟨_, rfl, rfl, rfl, rfl, rfl⟩

/-- Witness for C8: no sample jurisdiction has the id "E9". -/
theorem processCommand_unknown_jurisdiction_witness :
    (∀ jur ∈ sampleSimulation.jurisdictions, jur.id ≠ "E9") ∧
    ∃ sim', sampleSimulation.processCommand
        ⟨.ApplyJurisdictionPolicy, .policy ⟨"E9", samplePolicy⟩⟩ = .ok sim' ∧
      sim'.jurisdictions = sampleSimulation.jurisdictions ∧
      sim'.is_paused = sampleSimulation.is_paused ∧
      sim'.should_quit = sampleSimulation.should_quit ∧
      sim'.logger = sampleSimulation.logger ++
        [{ Type_ := CommandProcessed,
           Payload := .commandProcessed
             { Epoch := 5,
               Command := ⟨.ApplyJurisdictionPolicy, .policy ⟨"E9", samplePolicy⟩⟩ } }] :=
  ⟨by decide,
   processCommand_unknown_jurisdiction sampleSimulation ⟨"E9", samplePolicy⟩ (by decide)⟩

/-! ## C9 -/

/-- C9: a command tagged `ApplyJurisdictionPolicy` whose payload is not of the type
`*ApplyJurisdictionPolicyPayload` (no payload at all, or a value of another type) changes no
jurisdiction, no flag and not the epoch, and logs exactly one event, the `CommandProcessed`
event of the command. -/
theorem processCommand_malformed_payload (sim : Simulation) (command : Command)
    (hty : command.Type_ = .ApplyJurisdictionPolicy)
    (hpl : command.Payload = .nil ∨ ∃ tag, command.Payload = .other tag) :
    ∃ sim', sim.processCommand command = .ok sim' ∧
      sim'.jurisdictions = sim.jurisdictions ∧
      sim'.is_paused = sim.is_paused ∧ sim'.should_quit = sim.should_quit ∧
      sim'.epoch = sim.epoch ∧
      sim'.logger = sim.logger ++
        [{ Type_ := CommandProcessed,
           Payload := .commandProcessed { Epoch := sim.epoch, Command := command } }] := by
  have hswitch : sim.switchCommand command = .ok sim := by
    obtain ⟨ty, pl⟩ := command
    simp only at hty hpl
    subst hty
    rcases hpl with rfl | ⟨tag, rfl⟩ <;> rfl
  rw [processCommand_of_switch sim _ sim hswitch]
  exact ⟨_, rfl, rfl, rfl, rfl, rfl, rfl⟩

/-- Witness for C9: a policy command without payload. -/
theorem processCommand_malformed_payload_witness :
    ∃ sim', sampleSimulation.processCommand ⟨.ApplyJurisdictionPolicy, .nil⟩ = .ok sim' ∧
      sim'.jurisdictions = sampleSimulation.jurisdictions ∧
      sim'.is_paused = sampleSimulation.is_paused ∧
      sim'.should_quit = sampleSimulation.should_quit ∧
      sim'.epoch = sampleSimulation.epoch ∧
      sim'.logger = sampleSimulation.logger ++
        [{ Type_ := CommandProcessed,
           Payload := .commandProcessed
             { Epoch := 5, Command := ⟨.ApplyJurisdictionPolicy, .nil⟩ } }] :=
  processCommand_malformed_payload sampleSimulation ⟨.ApplyJurisdictionPolicy, .nil⟩ rfl
    (Or.inl rfl)

/-! ## C10 -/

/-- C10: an `ApplyJurisdictionPolicy` command with a well-typed payload whose jurisdiction id is
the id of at least one jurisdiction is processed without panic; the first jurisdiction of the
list with that id, at position `i`, afterwards has the payload's policy and is otherwise as it
was, and the jurisdiction at every other position is unchanged. -/
theorem processCommand_applies_policy (sim : Simulation)
    (payload : ApplyJurisdictionPolicyPayload)
    (h : ∃ jur ∈ sim.jurisdictions, jur.id = payload.JurisdictionId) :
    ∃ (sim' : Simulation) (i : Nat) (jur : Jurisdiction),
      sim.processCommand ⟨.ApplyJurisdictionPolicy, .policy payload⟩ = .ok sim' ∧
      sim.jurisdictions[i]? = some jur ∧ jur.id = payload.JurisdictionId ∧
      (∀ (j : Nat) (other : Jurisdiction), j < i → sim.jurisdictions[j]? = some other →
        other.id ≠ payload.JurisdictionId) ∧
      sim'.jurisdictions[i]? = some { jur with policy := payload.Policy } ∧
      (∀ j, j ≠ i → sim'.jurisdictions[j]? = sim.jurisdictions[j]?) ∧
      sim'.jurisdictions.length = sim.jurisdictions.length := by
  obtain ⟨i, jur, hget, hid, hfirst, happ⟩ := applyToFirstMatch_some payload sim.jurisdictions h
  have hswitch : sim.switchCommand ⟨.ApplyJurisdictionPolicy, .policy payload⟩ =
      .ok { sim with
            jurisdictions := sim.jurisdictions.set i { jur with policy := payload.Policy },
            logger := sim.logger ++ [(jur.applyPolicy payload.Policy).2] } := by
    simp only [Simulation.switchCommand, Simulation.applyJurisdictionPolicy, happ, Logger.Log]
  rw [processCommand_of_switch sim _ _ hswitch]
  refine ⟨_, i, jur, rfl, hget, hid, hfirst, ?_, ?_, ?_⟩
  · simp only [List.getElem?_set_self', hget]; rfl
  · intro j hj
    simp only []
    exact List.getElem?_set_ne (Ne.symm hj)
  · simp

/-- Witness for C10: the id "E2" is carried by the second and by the third sample jurisdiction;
the second one takes the policy. -/
theorem processCommand_applies_policy_witness :
    (∃ jur ∈ sampleSimulation.jurisdictions, jur.id = "E2") ∧
    ∃ (sim' : Simulation) (i : Nat) (jur : Jurisdiction),
      sampleSimulation.processCommand
        ⟨.ApplyJurisdictionPolicy, .policy ⟨"E2", samplePolicy⟩⟩ = .ok sim' ∧
      sampleSimulation.jurisdictions[i]? = some jur ∧ jur.id = "E2" ∧
      (∀ (j : Nat) (other : Jurisdiction), j < i → sampleSimulation.jurisdictions[j]? = some other → other.id ≠ "E2") ∧
      sim'.jurisdictions[i]? = some { jur with policy := samplePolicy } ∧
      (∀ j, j ≠ i → sim'.jurisdictions[j]? = sampleSimulation.jurisdictions[j]?) ∧
      sim'.jurisdictions.length = sampleSimulation.jurisdictions.length :=
  ⟨by decide,
   processCommand_applies_policy sampleSimulation ⟨"E2", samplePolicy⟩ (by decide)⟩

/-! ## C13 -/

theorem processCommand_pause_paused (sim : Simulation) (command : Command)
    (hp : sim.is_paused = true) (hty : command.Type_ = .Pause) :
    sim.processCommand command =
      .ok { sim with logger := sim.logger ++ [commandProcessedEvent sim command] } := by
  have hswitch : sim.switchCommand command = .ok sim := by
    obtain ⟨ty, pl⟩ := command
    simp only at hty
    subst hty
    simp only [Simulation.switchCommand, ← hp]
  exact processCommand_of_switch sim command sim hswitch

/-- C13: in a simulation whose pause flag is true, processing any number k of Pause commands in
a row returns the same simulation state apart from the log, so the pause flag is still true,
and the log has grown by exactly k events, the `CommandProcessed` event of each command in
order. -/
theorem processCommands_pause_paused (sim : Simulation) (commands : List Command)
    (hp : sim.is_paused = true) (hall : ∀ c ∈ commands, c.Type_ = .Pause) :
    ∃ sim', sim.processCommands commands = .ok sim' ∧
      sim' = { sim with logger := sim.logger ++ commands.map (commandProcessedEvent sim) } ∧
      sim'.is_paused = true ∧
      sim'.logger.length = sim.logger.length + commands.length ∧
      ∀ e ∈ commands.map (commandProcessedEvent sim), e.Type_ = CommandProcessed := by
  have main : ∀ (commands : List Command) (sim : Simulation), sim.is_paused = true →
      (∀ c ∈ commands, c.Type_ = .Pause) →
      sim.processCommands commands =
        .ok { sim with logger := sim.logger ++ commands.map (commandProcessedEvent sim) } := by
    intro commands
    induction commands with
    | nil => intro sim _ _; simp [Simulation.processCommands]
    | cons c rest ih =>
      intro sim hp hall
      have hc := processCommand_pause_paused sim c hp (hall c (List.mem_cons_self _ _))
      simp only [Simulation.processCommands, hc]
      have hrest := ih { sim with logger := sim.logger ++ [commandProcessedEvent sim c] } hp
        (fun c' hc' => hall c' (List.mem_cons_of_mem _ hc'))
      rw [hrest]
      simp [commandProcessedEvent]
  refine ⟨_, main commands sim hp hall, rfl, hp, by simp, ?_⟩
  intro e he
  obtain ⟨c, -, rfl⟩ := List.mem_map.1 he
  rfl

/-- Witness for C13: three Pause commands on the paused sample simulation. -/
theorem processCommands_pause_paused_witness :
    ∃ sim', Simulation.processCommands { sampleSimulation with is_paused := true }
        [⟨.Pause, .nil⟩, ⟨.Pause, .other 1⟩, ⟨.Pause, .nil⟩] = .ok sim' ∧
      sim'.is_paused = true ∧
      sim'.logger.length = sampleSimulation.logger.length + 3 ∧
      sim'.logger.map (·.Type_) = [CommandProcessed, CommandProcessed, CommandProcessed] := by
  obtain ⟨sim', h1, h2, h3, h4, -⟩ :=
    processCommands_pause_paused { sampleSimulation with is_paused := true }
      [⟨.Pause, .nil⟩, ⟨.Pause, .other 1⟩, ⟨.Pause, .nil⟩] rfl (by decide)
  exact ⟨sim', h1, h3, h4, by rw [h2]; rfl⟩

/-! ## C14 -/

/-- C14, as amended: for every time step `t > 0`, whether or not it divides a day, and any two
epochs `e1 < e2` at which the subscriber flushes and whose products with `t` are representable
in `int64`, the simulated time between them, `(e2 - e1) * t`, is at least 86,400,000 ms. -/
theorem metrics_flush_spacing (m : Metrics) (e1 e2 t : Int) (time1 time2 : Time)
    (ht : 0 < t) (hlt : e1 < e2)
    (hrep1 : -2 ^ 63 ≤ e1 * t ∧ e1 * t < 2 ^ 63) (hrep2 : -2 ^ 63 ≤ e2 * t ∧ e2 * t < 2 ^ 63)
    (h1 : flushesAt m e1 t time1) (h2 : flushesAt m e2 t time2) :
    86400000 ≤ (e2 - e1) * t := by
  have hday : dayMillis = 86400000 := by norm_num [dayMillis]
  rw [flushesAt_iff, hday] at h1 h2
  have p1 : mulInt64 e1 t = e1 * t := wrapInt64_of_inRange _ hrep1.1 hrep1.2
  have p2 : mulInt64 e2 t = e2 * t := wrapInt64_of_inRange _ hrep2.1 hrep2.2
  rw [p1] at h1
  rw [p2] at h2
  have hd : (86400000 : Int) ∣ (e2 - e1) * t := by
    rw [sub_mul]
    exact dvd_sub h2 h1
  have hpos : 0 < (e2 - e1) * t := mul_pos (by omega) ht
  exact Int.le_of_dvd hpos hd

/-- Witness for C14: epochs 24 and 48 at a time step of one hour. -/
theorem metrics_flush_spacing_witness :
    (0 : Int) < 3600000 ∧ (24 : Int) < 48 ∧
    flushesAt Metrics.new 24 3600000 0 ∧ flushesAt Metrics.new 48 3600000 0 ∧
    (86400000 : Int) ≤ (48 - 24) * 3600000 :=
  ⟨by decide, by decide, by decide, by decide,
   metrics_flush_spacing Metrics.new 24 48 3600000 0 0 (by decide) (by decide)
     (by decide) (by decide) (by decide) (by decide)⟩

/-- C14 as stated fails: with a time step of 1024 ms the subscriber flushes at the epochs
9007199254715625 and 9007199254766359, because the second `int64` product overflows, and the
simulated time between the two is 51,951,616 ms, less than a day. -/
theorem metrics_flush_spacing_overflow :
    (0 : Int) < 1024 ∧ (9007199254715625 : Int) < 9007199254766359 ∧
    flushesAt Metrics.new 9007199254715625 1024 0 ∧
    flushesAt Metrics.new 9007199254766359 1024 0 ∧
    ((9007199254766359 : Int) - 9007199254715625) * 1024 = 51951616 ∧
    ¬ (86400000 : Int) ≤ (9007199254766359 - 9007199254715625) * 1024 := by
  refine ⟨by decide, by decide, ?_, ?_, by decide, by decide⟩ <;>
    · rw [flushesAt_iff]
      decide

/-! ## C16 -/

/-- C16: in a simulation whose pause flag is true, `simulateEpoch` returns the simulation as it
is (epoch, flags, agents, spaces, jurisdictions and log unchanged, so no `EpochEnd` is logged),
a loop iteration that finds no command waiting leaves the state as it is, and a loop iteration
that finds a command waiting processes it: a Resume, for one, clears the pause flag and is
logged. -/
theorem simulateEpoch_paused (u : Updater) (sim : Simulation) (hp : sim.is_paused = true) :
    sim.simulateEpoch u = sim ∧
    (sim.should_quit = false → sim.commands = [] → sim.loopIteration u = .ok (some sim)) ∧
    (∀ command waiting, sim.should_quit = false → sim.commands = command :: waiting →
      sim.loopIteration u =
        (Simulation.processCommand { sim with commands := waiting } command).map some) ∧
    (∀ payload waiting, sim.should_quit = false →
      sim.commands = ⟨.Resume, payload⟩ :: waiting →
      ∃ sim', sim.loopIteration u = .ok (some sim') ∧ sim'.is_paused = false ∧
        sim'.logger = sim.logger ++
          [{ Type_ := CommandProcessed,
             Payload := .commandProcessed
               { Epoch := sim.epoch, Command := ⟨.Resume, payload⟩ } }]) := by
  have hsim : sim.simulateEpoch u = sim := by simp [Simulation.simulateEpoch, hp]
  refine ⟨hsim, ?_, ?_, ?_⟩
  · intro hq hc
    simp [Simulation.loopIteration, Simulation.selectCommand, hq, hc, hsim, Except.map]
  · intro command waiting hq hc
    simp [Simulation.loopIteration, Simulation.selectCommand, hq, hc]
  · intro payload waiting hq hc
    have hrun : sim.loopIteration u =
        .ok (some { sim with
          commands := waiting, is_paused := false,
          logger := sim.logger ++
            [{ Type_ := CommandProcessed,
               Payload := .commandProcessed
                 { Epoch := sim.epoch, Command := ⟨.Resume, payload⟩ } }] }) := by
      simp only [Simulation.loopIteration, Simulation.selectCommand, hq, hc]
      rfl
    exact ⟨_, hrun, rfl, rfl⟩

/-- Witness for C16: the paused sample simulation, with nothing waiting and with a Resume
waiting. -/
theorem simulateEpoch_paused_witness :
    Simulation.simulateEpoch sampleUpdater { sampleRunning with is_paused := true } =
      { sampleRunning with is_paused := true } ∧
    Simulation.loopIteration sampleUpdater { sampleRunning with is_paused := true } =
      .ok (some { sampleRunning with is_paused := true }) ∧
    ∃ sim', Simulation.loopIteration sampleUpdater
        { sampleRunning with is_paused := true, commands := [⟨.Resume, .nil⟩] } =
          .ok (some sim') ∧ sim'.is_paused = false ∧
        sim'.logger = [] ++
          [{ Type_ := CommandProcessed,
             Payload := .commandProcessed { Epoch := 23, Command := ⟨.Resume, .nil⟩ } }] :=
  ⟨(simulateEpoch_paused sampleUpdater { sampleRunning with is_paused := true } rfl).1,
   (simulateEpoch_paused sampleUpdater { sampleRunning with is_paused := true } rfl).2.1
     rfl rfl,
   (simulateEpoch_paused sampleUpdater
      { sampleRunning with is_paused := true, commands := [⟨.Resume, .nil⟩] } rfl).2.2.2
     .nil [] rfl rfl⟩

/-! ## C17 -/

/-- C17: the subscriber panics on an event if and only if the event is an `AgentStateUpdate`
whose payload is an `AgentStateUpdatePayload` with a State that is none of Susceptible,
Infected, Infectious, Immune; on an event of any type other than `EpochEnd` and
`AgentStateUpdate` it does not panic, changes no counter and has no effect. -/
theorem metrics_panic_iff (m : Metrics) (event : Event) :
    ((∃ msg, NewEventSubscriber m event = .error msg) ↔
      ∃ p, event = { Type_ := AgentStateUpdate, Payload := .agentStateUpdate p } ∧
        p.State ≠ .Susceptible ∧ p.State ≠ .Infected ∧ p.State ≠ .Infectious ∧
        p.State ≠ .Immune) ∧
    (event.Type_ ≠ EpochEnd → event.Type_ ≠ AgentStateUpdate →
      NewEventSubscriber m event = .ok (m, [])) := by
  obtain ⟨ty, pl⟩ := event
  have hne : ¬ AgentStateUpdate = EpochEnd := by decide
  constructor
  · constructor
    · rintro ⟨msg, h⟩
      by_cases h1 : ty = EpochEnd
      · subst h1
        cases pl with
        | epochEnd payload =>
          by_cases hz : goRem (mulInt64 payload.Epoch payload.TimeStep) dayMillis ≠ 0 <;>
            simp [NewEventSubscriber, hz] at h
        | _ => simp [NewEventSubscriber] at h
      · by_cases h2 : ty = AgentStateUpdate
        · subst h2
          cases pl with
          | agentStateUpdate p =>
            cases hst : p.State with
            | other tag =>
              exact ⟨p, rfl, by simp [hst], by simp [hst], by simp [hst], by simp [hst]⟩
            | _ => simp [NewEventSubscriber, hne, hst] at h
          | _ => simp [NewEventSubscriber, hne] at h
        · simp [NewEventSubscriber, h1, h2] at h
    · rintro ⟨p, hev, h1, h2, h3, h4⟩
      simp only [Event.mk.injEq] at hev
      obtain ⟨rfl, rfl⟩ := hev
      cases hst : p.State with
      | other tag =>
        exact ⟨"this should not be possible", by simp [NewEventSubscriber, hne, hst]⟩
      | Susceptible => exact absurd hst h1
      | Infected => exact absurd hst h2
      | Infectious => exact absurd hst h3
      | Immune => exact absurd hst h4
  · intro h1 h2
    simp only at h1 h2
    simp [NewEventSubscriber, h1, h2]

/-- Witness for C17: a `PolicyUpdate` event, and an agent state update with an unknown state. -/
theorem metrics_panic_iff_witness :
    NewEventSubscriber ⟨3, 1, 5, 2, 7⟩ ⟨PolicyUpdate, .other 0⟩ = .ok (⟨3, 1, 5, 2, 7⟩, []) ∧
    ∃ msg, NewEventSubscriber ⟨3, 1, 5, 2, 7⟩
      ⟨AgentStateUpdate, .agentStateUpdate ⟨1, 10, .other 9, .Immune, false, none⟩⟩ =
        .error msg :=
  ⟨(metrics_panic_iff ⟨3, 1, 5, 2, 7⟩ ⟨PolicyUpdate, .other 0⟩).2 (by decide) (by decide),
   (metrics_panic_iff ⟨3, 1, 5, 2, 7⟩
      ⟨AgentStateUpdate, .agentStateUpdate ⟨1, 10, .other 9, .Immune, false, none⟩⟩).1.2
     ⟨_, rfl, by decide, by decide, by decide, by decide⟩⟩

/-! ## C19 -/

/-- Over a sequence generated by the state machine the population counters count the agents of
the population reached at the end of the sequence. -/
theorem counts_run_after (events : List Event) :
    ∀ (pop : Population) (m : Metrics), Counts pop m → validFrom pop events = true →
      ∃ m', runSubscriber m events = .ok m' ∧ Counts (populationAfter pop events) m' := by
  induction events with
  | nil => intro pop m h _; exact ⟨m, rfl, h⟩
  | cons event rest ih =>
    intro pop m h hv
    unfold validFrom at hv
    cases hev : stateUpdateOf event with
    | none =>
      rw [hev] at hv
      simp only at hv
      obtain ⟨m1, effects, hrun, h1⟩ := counts_otherEvent h event hev
      obtain ⟨m', hrest, h'⟩ := ih pop m1 h1 hv
      refine ⟨m', by simp only [runSubscriber, hrun]; exact hrest, ?_⟩
      simp only [populationAfter, hev]
      exact h'
    | some p =>
      rw [hev] at hv
      simp only [Bool.and_eq_true, decide_eq_true_eq] at hv
      obtain ⟨m1, hrun, h1⟩ := counts_stateUpdate h event p hev hv.1
      obtain ⟨m', hrest, h'⟩ := ih _ m1 h1 hv.2
      refine ⟨m', by simp only [runSubscriber, hrun]; exact hrest, ?_⟩
      simp only [populationAfter, hev]
      exact h'

/-- C19: for every sequence of events in which every agent starts Susceptible and every agent
state update moves its agent one step along the cycle, after every initial segment of the
sequence the aggregator has not panicked and, over the population reached: InfectedPopulation
is the number of agents that are Infected or Infectious, InfectiousPopulation the number of
agents that are Infectious, ImmunePopulation the number of agents that are Immune; the number
of agents that are Infected alone is InfectedPopulation minus InfectiousPopulation. -/
theorem metrics_populations_count (events : List Event)
    (hvalid : validFrom allSusceptible events = true) (k : Nat) :
    ∃ (m : Metrics) (A B C I : Finset UUID),
      runSubscriber Metrics.new (events.take k) = .ok m ∧
      (∀ id, id ∈ A ↔ populationAfter allSusceptible (events.take k) id = .Infected ∨
        populationAfter allSusceptible (events.take k) id = .Infectious) ∧
      (∀ id, id ∈ B ↔ populationAfter allSusceptible (events.take k) id = .Infectious) ∧
      (∀ id, id ∈ C ↔ populationAfter allSusceptible (events.take k) id = .Immune) ∧
      (∀ id, id ∈ I ↔ populationAfter allSusceptible (events.take k) id = .Infected) ∧
      m.InfectedPopulation = A.card ∧ m.InfectiousPopulation = B.card ∧
      m.ImmunePopulation = C.card ∧
      (I.card : Int) = m.InfectedPopulation - m.InfectiousPopulation := by
  obtain ⟨m, hrun, A, B, C, hA, hB, hC, cA, cB, cC⟩ :=
    counts_run_after (events.take k) allSusceptible Metrics.new counts_allSusceptible
      (validFrom_take events allSusceptible k hvalid)
  have hsub : B ⊆ A := fun id hid => (hA id).2 (Or.inr ((hB id).1 hid))
  refine ⟨m, A, B, C, A \ B, hrun, hA, hB, hC, ?_, cA, cB, cC, ?_⟩
  · intro id
    rw [Finset.mem_sdiff, hA id, hB id]
    constructor
    · rintro ⟨h1 | h1, h2⟩
      · exact h1
      · exact absurd h1 h2
    · intro h1
      exact ⟨Or.inl h1, by rw [h1]; simp⟩
  · rw [Finset.card_sdiff hsub, cA, cB]
    have := Finset.card_le_card hsub
    omega

/-- Witness for C19: after the first four sample events agent 10 is Infectious and agent 11 is
Infected. -/
theorem metrics_populations_count_witness :
    validFrom allSusceptible sampleEvents = true ∧
    ∃ (m : Metrics) (A B C I : Finset UUID),
      runSubscriber Metrics.new (sampleEvents.take 4) = .ok m ∧
      (∀ id, id ∈ A ↔ populationAfter allSusceptible (sampleEvents.take 4) id = .Infected ∨
        populationAfter allSusceptible (sampleEvents.take 4) id = .Infectious) ∧
      (∀ id, id ∈ B ↔ populationAfter allSusceptible (sampleEvents.take 4) id = .Infectious) ∧
      (∀ id, id ∈ C ↔ populationAfter allSusceptible (sampleEvents.take 4) id = .Immune) ∧
      (∀ id, id ∈ I ↔ populationAfter allSusceptible (sampleEvents.take 4) id = .Infected) ∧
      m.InfectedPopulation = A.card ∧ m.InfectiousPopulation = B.card ∧
      m.ImmunePopulation = C.card ∧
      (I.card : Int) = m.InfectedPopulation - m.InfectiousPopulation :=
  ⟨by decide, metrics_populations_count sampleEvents (by decide) 4⟩

/-! ## The entity updates leave the control part alone -/

theorem LogAll_eq (logger : Logger) (events : List Event) :
    logger.LogAll events = logger ++ events := by
  unfold Logger.LogAll
  induction events generalizing logger with
  | nil => simp
  | cons event rest ih =>
    rw [List.foldl_cons, ih]
    simp [Logger.Log]

theorem foldl_updateAgent_frame (u : Updater) (indices : List Nat) :
    ∀ sim : Simulation, ∃ events : List AgentEvent,
      (indices.foldl (Simulation.updateAgent u) sim).control = sim.control ∧
      (indices.foldl (Simulation.updateAgent u) sim).logger =
        sim.logger ++ events.map AgentEvent.toEvent := by
  induction indices with
  | nil => intro sim; exact ⟨[], rfl, by simp⟩
  | cons i rest ih =>
    intro sim
    obtain ⟨events, hc, hl⟩ := ih (sim.updateAgent u i)
    refine ⟨(u.agentUpdate sim i).2 ++ events, ?_, ?_⟩
    · rw [List.foldl_cons, hc]; rfl
    · rw [List.foldl_cons, hl]
      simp [Simulation.updateAgent, LogAll_eq]

theorem foldl_updateSpace_frame (u : Updater) (kind : SpaceKind) (indices : List Nat) :
    ∀ sim : Simulation, ∃ events : List SpaceEvent,
      (indices.foldl (Simulation.updateSpace u kind) sim).control = sim.control ∧
      (indices.foldl (Simulation.updateSpace u kind) sim).logger =
        sim.logger ++ events.map SpaceEvent.toEvent := by
  induction indices with
  | nil => intro sim; exact ⟨[], rfl, by simp⟩
  | cons i rest ih =>
    intro sim
    obtain ⟨events, hc, hl⟩ := ih (sim.updateSpace u kind i)
    refine ⟨(u.spaceUpdate sim { kind := kind, index := i }).2 ++ events, ?_, ?_⟩
    · rw [List.foldl_cons, hc]; rfl
    · rw [List.foldl_cons, hl]
      simp [Simulation.updateSpace, LogAll_eq]

theorem agentEvent_type (e : AgentEvent) :
    e.toEvent.Type_ = AgentStateUpdate ∨ e.toEvent.Type_ = AgentLocationUpdate := by
  cases e
  · exact Or.inl rfl
  · exact Or.inr rfl

theorem spaceEvent_type (e : SpaceEvent) :
    e.toEvent.Type_ = SpaceOccupancyUpdate ∨ e.toEvent.Type_ = SpaceTestingUpdate := by
  cases e
  · exact Or.inl rfl
  · exact Or.inr rfl

theorem updateAgents_frame (u : Updater) (sim : Simulation) :
    ∃ events : List AgentEvent, (sim.updateAgents u).control = sim.control ∧
      (sim.updateAgents u).logger = sim.logger ++ events.map AgentEvent.toEvent :=
  foldl_updateAgent_frame u _ sim

theorem updateSpaces_frame (u : Updater) (kind : SpaceKind) (sim : Simulation) :
    ∃ events : List SpaceEvent, (sim.updateSpaces u kind).control = sim.control ∧
      (sim.updateSpaces u kind).logger = sim.logger ++ events.map SpaceEvent.toEvent :=
  foldl_updateSpace_frame u kind _ sim

/-- The five loops of `simulateEpoch` write entities and log events of agents and spaces, the
events of the agents first; the control part of the simulation is as before. -/
theorem updateEntities_frame (u : Updater) (sim : Simulation) :
    (sim.updateEntities u).control = sim.control ∧
    ∃ (agentEvents : List AgentEvent) (spaceEvents : List SpaceEvent),
      (sim.updateEntities u).logger =
        sim.logger ++ agentEvents.map AgentEvent.toEvent ++
          spaceEvents.map SpaceEvent.toEvent := by
  obtain ⟨ev1, c1, l1⟩ := updateAgents_frame u sim
  obtain ⟨ev2, c2, l2⟩ := updateSpaces_frame u .Household (sim.updateAgents u)
  obtain ⟨ev3, c3, l3⟩ := updateSpaces_frame u .Office
    ((sim.updateAgents u).updateSpaces u .Household)
  obtain ⟨ev4, c4, l4⟩ := updateSpaces_frame u .Social
    (((sim.updateAgents u).updateSpaces u .Household).updateSpaces u .Office)
  obtain ⟨ev5, c5, l5⟩ := updateSpaces_frame u .Healthcare
    ((((sim.updateAgents u).updateSpaces u .Household).updateSpaces u .Office).updateSpaces u
      .Social)
  refine ⟨c5.trans (c4.trans (c3.trans (c2.trans c1))), ev1, ev2 ++ ev3 ++ ev4 ++ ev5, ?_⟩
  unfold Simulation.updateEntities
  simp only []
  rw [l5, l4, l3, l2, l1]
  simp [List.append_assoc]

theorem control_fields {a b : Simulation} (h : a.control = b.control) :
    a.epoch = b.epoch ∧ a.time_step = b.time_step ∧ a.is_paused = b.is_paused ∧
    a.should_quit = b.should_quit ∧ a.commands = b.commands ∧
    a.jurisdictions = b.jurisdictions ∧ a.start_time = b.start_time := by
  simp only [Simulation.control, Prod.mk.injEq] at h
  obtain ⟨-, -, h3, h4, h5, h6, h7, h8, h9⟩ := h
  exact ⟨h4, h5, h7, h8, h9, h6, h3⟩

theorem simulateEpoch_running (u : Updater) (sim : Simulation) (hp : sim.is_paused = false) :
    sim.simulateEpoch u =
      { Simulation.updateEntities u { sim with epoch := wrapInt64 (sim.epoch + 1) } with
        logger := (Simulation.updateEntities u { sim with epoch := wrapInt64 (sim.epoch + 1) }).logger ++
          [epochEndEvent (Simulation.updateEntities u { sim with epoch := wrapInt64 (sim.epoch + 1) })] } := by
  simp [Simulation.simulateEpoch, hp, Logger.Log]

/-- What `simulateEpoch` does to the control part: the epoch counter moves by one unless the
simulation is paused, nothing else moves. -/
theorem simulateEpoch_control (u : Updater) (sim : Simulation) :
    (sim.simulateEpoch u).epoch = (if sim.is_paused then sim.epoch else wrapInt64 (sim.epoch + 1)) ∧
    (sim.simulateEpoch u).time_step = sim.time_step ∧
    (sim.simulateEpoch u).is_paused = sim.is_paused ∧
    (sim.simulateEpoch u).should_quit = sim.should_quit ∧
    (sim.simulateEpoch u).commands = sim.commands ∧
    (sim.simulateEpoch u).jurisdictions = sim.jurisdictions := by
  cases hp : sim.is_paused with
  | true =>
    have : sim.simulateEpoch u = sim := by simp [Simulation.simulateEpoch, hp]
    rw [this]
    simp [hp]
  | false =>
    rw [simulateEpoch_running u sim hp]
    obtain ⟨h1, h2, h3, h4, h5, h6, -⟩ :=
      control_fields (updateEntities_frame u { sim with epoch := wrapInt64 (sim.epoch + 1) }).1
    generalize Simulation.updateEntities u { sim with epoch := wrapInt64 (sim.epoch + 1) } = s5
      at h1 h2 h3 h4 h5 h6 ⊢
    refine ⟨?_, h2, h3.trans hp, h4, h5, h6⟩
    simp only [Bool.false_eq_true, if_false]
    exact h1

/-! ## C15 -/

/-- C15: for a simulation that is not paused, one call of `simulateEpoch` increments the epoch
counter, then runs the update of every agent, then of every household, then of every office,
then of every social space, then of every healthcare space, each loop starting from the state
the one before left and appending its events to the log, and then logs the `EpochEnd` event.
So the log grows by the events of the agents, then the events of the spaces, then exactly one
`EpochEnd` event, which is the last one; its payload has Epoch equal to the incremented epoch
counter and TimeStep equal to the simulation's time step.  The incremented counter is the
`int64` sum epoch + 1, which is epoch + 1 for every epoch below 2^63 - 1. -/
theorem simulateEpoch_order (u : Updater) (sim : Simulation) (hp : sim.is_paused = false) :
    ∃ (s1 s2 s3 s4 s5 : Simulation) (agentEvents : List AgentEvent)
      (householdEvents officeEvents socialEvents healthcareEvents : List SpaceEvent)
      (time : Time),
      s1 = Simulation.updateAgents u { sim with epoch := wrapInt64 (sim.epoch + 1) } ∧
      s2 = s1.updateSpaces u .Household ∧
      s3 = s2.updateSpaces u .Office ∧
      s4 = s3.updateSpaces u .Social ∧
      s5 = s4.updateSpaces u .Healthcare ∧
      s1.logger = sim.logger ++ agentEvents.map AgentEvent.toEvent ∧
      s2.logger = s1.logger ++ householdEvents.map SpaceEvent.toEvent ∧
      s3.logger = s2.logger ++ officeEvents.map SpaceEvent.toEvent ∧
      s4.logger = s3.logger ++ socialEvents.map SpaceEvent.toEvent ∧
      s5.logger = s4.logger ++ healthcareEvents.map SpaceEvent.toEvent ∧
      sim.simulateEpoch u =
        { s5 with logger := s5.logger ++
            [{ Type_ := EpochEnd,
               Payload := .epochEnd
                 { Epoch := wrapInt64 (sim.epoch + 1), TimeStep := sim.time_step, Time := time } }] } ∧
      (sim.simulateEpoch u).epoch = wrapInt64 (sim.epoch + 1) ∧
      (sim.simulateEpoch u).logger =
        sim.logger ++ agentEvents.map AgentEvent.toEvent ++
          (householdEvents ++ officeEvents ++ socialEvents ++ healthcareEvents).map
            SpaceEvent.toEvent ++
          [{ Type_ := EpochEnd,
             Payload := .epochEnd
               { Epoch := wrapInt64 (sim.epoch + 1), TimeStep := sim.time_step, Time := time } }] ∧
      (∀ e ∈ agentEvents.map AgentEvent.toEvent,
        e.Type_ = AgentStateUpdate ∨ e.Type_ = AgentLocationUpdate) ∧
      (∀ e ∈ (householdEvents ++ officeEvents ++ socialEvents ++ healthcareEvents).map
          SpaceEvent.toEvent,
        e.Type_ = SpaceOccupancyUpdate ∨ e.Type_ = SpaceTestingUpdate) ∧
      (∀ e ∈ agentEvents.map AgentEvent.toEvent ++
          (householdEvents ++ officeEvents ++ socialEvents ++ healthcareEvents).map
            SpaceEvent.toEvent,
        e.Type_ ≠ EpochEnd) ∧
      (-2 ^ 63 ≤ sim.epoch → sim.epoch < 2 ^ 63 - 1 →
        wrapInt64 (sim.epoch + 1) = sim.epoch + 1) := by
  obtain ⟨ev1, c1, l1⟩ := updateAgents_frame u { sim with epoch := wrapInt64 (sim.epoch + 1) }
  obtain ⟨ev2, c2, l2⟩ := updateSpaces_frame u .Household
    (Simulation.updateAgents u { sim with epoch := wrapInt64 (sim.epoch + 1) })
  obtain ⟨ev3, c3, l3⟩ := updateSpaces_frame u .Office
    ((Simulation.updateAgents u { sim with epoch := wrapInt64 (sim.epoch + 1) }).updateSpaces u .Household)
  obtain ⟨ev4, c4, l4⟩ := updateSpaces_frame u .Social
    (((Simulation.updateAgents u { sim with epoch := wrapInt64 (sim.epoch + 1) }).updateSpaces u
      .Household).updateSpaces u .Office)
  obtain ⟨ev5, c5, l5⟩ := updateSpaces_frame u .Healthcare
    ((((Simulation.updateAgents u { sim with epoch := wrapInt64 (sim.epoch + 1) }).updateSpaces u
      .Household).updateSpaces u .Office).updateSpaces u .Social)
  obtain ⟨hep, hts, -⟩ := control_fields (c5.trans (c4.trans (c3.trans (c2.trans c1))))
  have hrun := simulateEpoch_running u sim hp
  have hent : Simulation.updateEntities u { sim with epoch := wrapInt64 (sim.epoch + 1) } =
      ((((Simulation.updateAgents u { sim with epoch := wrapInt64 (sim.epoch + 1) }).updateSpaces u
        .Household).updateSpaces u .Office).updateSpaces u .Social).updateSpaces u
        .Healthcare := rfl
  rw [hent] at hrun
  have hev : epochEndEvent (((((Simulation.updateAgents u
        { sim with epoch := wrapInt64 (sim.epoch + 1) }).updateSpaces u .Household).updateSpaces u
        .Office).updateSpaces u .Social).updateSpaces u .Healthcare) =
      { Type_ := EpochEnd,
        Payload := .epochEnd
          { Epoch := wrapInt64 (sim.epoch + 1), TimeStep := sim.time_step,
            Time := (((((Simulation.updateAgents u
              { sim with epoch := wrapInt64 (sim.epoch + 1) }).updateSpaces u .Household).updateSpaces u
              .Office).updateSpaces u .Social).updateSpaces u .Healthcare).time } } := by
    simp only [epochEndEvent, hep, hts]
  rw [hev] at hrun
  have htypeA : ∀ e ∈ ev1.map AgentEvent.toEvent,
      e.Type_ = AgentStateUpdate ∨ e.Type_ = AgentLocationUpdate := by
    intro e he
    obtain ⟨a, -, rfl⟩ := List.mem_map.1 he
    exact agentEvent_type a
  have htypeS : ∀ e ∈ (ev2 ++ ev3 ++ ev4 ++ ev5).map SpaceEvent.toEvent,
      e.Type_ = SpaceOccupancyUpdate ∨ e.Type_ = SpaceTestingUpdate := by
    intro e he
    obtain ⟨a, -, rfl⟩ := List.mem_map.1 he
    exact spaceEvent_type a
  refine ⟨_, _, _, _, _, ev1, ev2, ev3, ev4, ev5, _, rfl, rfl, rfl, rfl, rfl, l1, l2, l3, l4, l5,
    hrun, ?_, ?_, htypeA, htypeS, ?_,
    fun hlo hhi => wrapInt64_of_inRange _ (by omega) (by omega)⟩
  · rw [hrun]
    exact hep
  · rw [hrun]
    simp only []
    rw [l5, l4, l3, l2, l1]
    simp [List.append_assoc]
  · intro e he
    rcases List.mem_append.1 he with h | h
    · rcases htypeA e h with h | h <;> rw [h] <;> decide
    · rcases htypeS e h with h | h <;> rw [h] <;> decide

/-- Witness for C15: one epoch of the running sample simulation under the sample updater. -/
theorem simulateEpoch_order_witness :
    (Simulation.simulateEpoch sampleUpdater sampleRunning).epoch = 24 ∧
    (Simulation.simulateEpoch sampleUpdater sampleRunning).logger.map (·.Type_) =
      [AgentLocationUpdate, AgentLocationUpdate, SpaceOccupancyUpdate, SpaceOccupancyUpdate,
       SpaceOccupancyUpdate, SpaceOccupancyUpdate, EpochEnd] ∧
    (Simulation.simulateEpoch sampleUpdater sampleRunning).logger.getLast? =
      some { Type_ := EpochEnd,
             Payload := .epochEnd
               { Epoch := 24, TimeStep := 3600000, Time := 86400000000000 } } := by
  obtain ⟨s1, s2, s3, s4, s5, ev1, ev2, ev3, ev4, ev5, time, -, -, -, -, -, -, -, -, -, -, -,
    hep, -, -, -, -, hwrap⟩ := simulateEpoch_order sampleUpdater sampleRunning rfl
  exact ⟨hep.trans (hwrap (by decide) (by decide)), by decide, by decide⟩

/-! ## C12 -/

/-- What the switch of `processCommand` does to the quit flag: a Quit sets it and changes
nothing else, any other command leaves it alone. -/
theorem switchCommand_quit_flag (sim : Simulation) (command : Command) (sim1 : Simulation)
    (h : sim.switchCommand command = .ok sim1) :
    (command.Type_ = .Quit ∧ sim1 = { sim with should_quit := true }) ∨
    (command.Type_ ≠ .Quit ∧ sim1.should_quit = sim.should_quit) := by
  obtain ⟨ty, pl⟩ := command
  cases ty with
  | Quit =>
    simp only [Simulation.switchCommand, Except.ok.injEq] at h
    exact Or.inl ⟨rfl, h.symm⟩
  | Pause =>
    simp only [Simulation.switchCommand, Except.ok.injEq] at h
    exact Or.inr ⟨by simp, by rw [← h]⟩
  | Resume =>
    simp only [Simulation.switchCommand, Except.ok.injEq] at h
    exact Or.inr ⟨by simp, by rw [← h]⟩
  | other tag =>
    simp only [Simulation.switchCommand, Except.ok.injEq] at h
    exact Or.inr ⟨by simp, by rw [← h]⟩
  | ApplyJurisdictionPolicy =>
    refine Or.inr ⟨by simp, ?_⟩
    cases pl with
    | nil => simp only [Simulation.switchCommand, Except.ok.injEq] at h; rw [← h]
    | other tag => simp only [Simulation.switchCommand, Except.ok.injEq] at h; rw [← h]
    | nilPolicyPointer => simp [Simulation.switchCommand] at h
    | policy payload =>
      simp only [Simulation.switchCommand, Except.ok.injEq] at h
      rw [← h]
      unfold Simulation.applyJurisdictionPolicy
      split <;> rfl

/-- A command that `processCommand` processes without panic leaves the epoch counter alone. -/
theorem processCommand_epoch (sim : Simulation) (command : Command) (sim' : Simulation)
    (h : sim.processCommand command = .ok sim') : sim'.epoch = sim.epoch := by
  by_cases hptr : command.Type_ = .ApplyJurisdictionPolicy ∧
      command.Payload = .nilPolicyPointer
  · obtain ⟨ty, pl⟩ := command
    simp only at hptr
    obtain ⟨rfl, rfl⟩ := hptr
    simp [Simulation.processCommand, Simulation.switchCommand] at h
  · obtain ⟨sim1, updates, hswitch, -, hep, -⟩ := switchCommand_spec sim command hptr
    rw [processCommand_of_switch sim command sim1 hswitch] at h
    simp only [Except.ok.injEq] at h
    rw [← h]
    exact hep

/-- C12, as amended: for every simulation state whose epoch counter is below the `int64`
maximum 2^63 - 1, one iteration of the loop of `Start` that finds no command waiting returns a
state whose epoch counter is exactly epoch+1 when the simulation is not paused and exactly the
epoch before when it is paused; an iteration that finds a command waiting returns, unless the
command makes `processCommand` panic, a state with exactly the epoch before; so after every
iteration the epoch counter is ≥ the one before.  With the quit flag set there is no
iteration. -/
theorem loopIteration_epoch (u : Updater) (sim : Simulation)
    (hlo : -2 ^ 63 ≤ sim.epoch) (hhi : sim.epoch < 2 ^ 63 - 1) :
    (sim.should_quit = false → sim.commands = [] →
      ∃ sim', sim.loopIteration u = .ok (some sim') ∧
        (sim.is_paused = false → sim'.epoch = sim.epoch + 1) ∧
        (sim.is_paused = true → sim'.epoch = sim.epoch)) ∧
    (∀ command waiting, sim.should_quit = false → sim.commands = command :: waiting →
      ¬ (command.Type_ = .ApplyJurisdictionPolicy ∧ command.Payload = .nilPolicyPointer) →
      ∃ sim', sim.loopIteration u = .ok (some sim') ∧ sim'.epoch = sim.epoch) ∧
    (∀ sim', sim.loopIteration u = .ok (some sim') → sim.epoch ≤ sim'.epoch) ∧
    (sim.should_quit = true → sim.loopIteration u = .ok none) := by
  have hwrap : wrapInt64 (sim.epoch + 1) = sim.epoch + 1 :=
    wrapInt64_of_inRange _ (by omega) (by omega)
  refine ⟨?_, ?_, ?_, ?_⟩
  · intro hq hc
    refine ⟨sim.simulateEpoch u, ?_, ?_, ?_⟩
    · simp [Simulation.loopIteration, Simulation.selectCommand, hq, hc, Except.map]
    · intro hp
      rw [(simulateEpoch_control u sim).1, hp]
      simpa using hwrap
    · intro hp
      rw [(simulateEpoch_control u sim).1, hp]
      simp
  · intro command waiting hq hc hptr
    obtain ⟨sim1, updates, hswitch, -, hep, -⟩ :=
      switchCommand_spec { sim with commands := waiting } command hptr
    have hrun : sim.loopIteration u =
        .ok (some { sim1 with logger := sim1.logger ++ [commandProcessedEvent sim1 command] }) := by
      unfold Simulation.loopIteration Simulation.selectCommand
      rw [if_neg (by simp [hq]), hc]
      simp only []
      rw [processCommand_of_switch _ command sim1 hswitch]
      rfl
    exact ⟨_, hrun, hep⟩
  · intro sim' h
    unfold Simulation.loopIteration at h
    by_cases hq : sim.should_quit = true
    · simp [hq] at h
    · simp only [hq, Bool.false_eq_true, if_false] at h
      cases hsel : sim.selectCommand u with
      | error msg => simp [hsel, Except.map] at h
      | ok s =>
        simp only [hsel, Except.map, Except.ok.injEq, Option.some.injEq] at h
        subst h
        unfold Simulation.selectCommand at hsel
        cases hc : sim.commands with
        | nil =>
          simp only [hc, Except.ok.injEq] at hsel
          rw [← hsel, (simulateEpoch_control u sim).1, hwrap]
          split <;> omega
        | cons command waiting =>
          simp only [hc] at hsel
          rw [processCommand_epoch _ command s hsel]
  · intro hq
    simp [Simulation.loopIteration, hq]

/-- Witness for C12: the running sample simulation, with nothing waiting and with a Pause
waiting. -/
theorem loopIteration_epoch_witness :
    (∃ sim', Simulation.loopIteration sampleUpdater sampleRunning = .ok (some sim') ∧
      sim'.epoch = 23 + 1) ∧
    (∃ sim', Simulation.loopIteration sampleUpdater
        { sampleRunning with commands := [⟨.Pause, .nil⟩] } = .ok (some sim') ∧
      sim'.epoch = 23) := by
  obtain ⟨sim1, h1, h2, -⟩ :=
    (loopIteration_epoch sampleUpdater sampleRunning (by decide) (by decide)).1 rfl rfl
  obtain ⟨sim2, h3, h4⟩ := (loopIteration_epoch sampleUpdater
    { sampleRunning with commands := [⟨.Pause, .nil⟩] } (by decide) (by decide)).2.1
    ⟨.Pause, .nil⟩ [] rfl rfl (by decide)
  exact ⟨⟨sim1, h1, h2 rfl⟩, ⟨sim2, h3, h4⟩⟩

theorem wrapInt64_range (a : Int) : -2 ^ 63 ≤ wrapInt64 a ∧ wrapInt64 a < 2 ^ 63 := by
  unfold wrapInt64
  omega

theorem wrapInt64_add_wrap (a b : Int) : wrapInt64 (wrapInt64 a + b) = wrapInt64 (a + b) := by
  unfold wrapInt64
  omega

/-- With nothing arriving, `n` iterations of the loop on a running simulation are `n` epochs:
the epoch counter has moved `n` times, in `int64`. -/
theorem runLoop_epochs (u : Updater) (n : Nat) :
    ∀ sim : Simulation, sim.should_quit = false → sim.is_paused = false →
      sim.commands = [] → -2 ^ 63 ≤ sim.epoch → sim.epoch < 2 ^ 63 →
      ∃ final, sim.runLoop u (List.replicate n []) = .ok final ∧
        final.epoch = wrapInt64 (sim.epoch + n) ∧ final.should_quit = false ∧
        final.is_paused = false ∧ final.commands = [] := by
  induction n with
  | zero =>
    intro sim hq hp hc hlo hhi
    refine ⟨sim, ?_, ?_, hq, hp, hc⟩
    · simp [Simulation.runLoop]
    · simpa using (wrapInt64_of_inRange _ hlo hhi).symm
  | succ n ih =>
    intro sim hq hp hc hlo hhi
    obtain ⟨h1, -, h3, h4, h5, -⟩ := simulateEpoch_control u sim
    rw [hp] at h1 h3
    rw [hq] at h4
    rw [hc] at h5
    have hr := wrapInt64_range (sim.epoch + 1)
    simp only [Bool.false_eq_true, if_false] at h1
    obtain ⟨final, hrun, hep, hfq, hfp, hfc⟩ := ih (sim.simulateEpoch u) h4 h3 h5
      (by rw [h1]; exact hr.1) (by rw [h1]; exact hr.2)
    refine ⟨final, ?_, ?_, hfq, hfp, hfc⟩
    · rw [List.replicate_succ]
      unfold Simulation.runLoop
      rw [if_neg (by simp [hq])]
      simp only [List.foldl_nil, Simulation.selectCommand, hc]
      exact hrun
    · rw [hep, h1, wrapInt64_add_wrap]
      congr 1
      push_cast
      omega

/-- Counterexample to C12 as stated: the running sample simulation with the epoch counter at
2^63 - 1, not paused and with no command waiting.  One iteration of the loop takes the counter
to -2^63, which is neither epoch+1 nor ≥ the epoch before.  The state is reachable: 2^63 - 1
iterations with no command arriving lead to it from epoch 0. -/
theorem loopIteration_epoch_overflow :
    sampleLastEpoch.should_quit = false ∧ sampleLastEpoch.is_paused = false ∧
    sampleLastEpoch.commands = [] ∧ sampleLastEpoch.epoch = 9223372036854775807 ∧
    (∃ sim', Simulation.loopIteration sampleUpdater sampleLastEpoch = .ok (some sim') ∧
      sim'.epoch = -9223372036854775808 ∧
      sim'.epoch ≠ sampleLastEpoch.epoch + 1 ∧
      ¬ sampleLastEpoch.epoch ≤ sim'.epoch) ∧
    (∃ final, Simulation.runLoop sampleUpdater sampleFirstEpoch
        (List.replicate 9223372036854775807 []) = .ok final ∧
      final.epoch = sampleLastEpoch.epoch ∧ final.should_quit = false ∧
      final.is_paused = false ∧ final.commands = []) := by
  have hnext : (sampleLastEpoch.simulateEpoch sampleUpdater).epoch = -9223372036854775808 := by
    rw [(simulateEpoch_control sampleUpdater sampleLastEpoch).1]
    decide
  refine ⟨rfl, rfl, rfl, rfl, ⟨sampleLastEpoch.simulateEpoch sampleUpdater, ?_, hnext, ?_, ?_⟩, ?_⟩
  · have hq : sampleLastEpoch.should_quit = false := rfl
    have hc : sampleLastEpoch.commands = [] := rfl
    simp [Simulation.loopIteration, Simulation.selectCommand, hq, hc, Except.map]
  · rw [hnext]
    decide
  · rw [hnext]
    decide
  · obtain ⟨final, hrun, hep, hq, hp, hc⟩ := runLoop_epochs sampleUpdater 9223372036854775807
      sampleFirstEpoch rfl rfl rfl (by decide) (by decide)
    refine ⟨final, hrun, ?_, hq, hp, hc⟩
    rw [hep]
    decide

/-! ## C11 -/

theorem foldl_SendCommand (arriving : List Command) :
    ∀ sim : Simulation,
      (arriving.foldl Simulation.SendCommand sim).should_quit = sim.should_quit ∧
      (arriving.foldl Simulation.SendCommand sim).logger = sim.logger ∧
      (arriving.foldl Simulation.SendCommand sim).epoch = sim.epoch := by
  induction arriving with
  | nil => intro sim; exact ⟨rfl, rfl, rfl⟩
  | cons c rest ih =>
    intro sim
    rw [List.foldl_cons]
    exact ih (sim.SendCommand c)

theorem runLoop_of_quit (u : Updater) (sim : Simulation) (hq : sim.should_quit = true)
    (arrivals : List (List Command)) : sim.runLoop u arrivals = .ok sim := by
  cases arrivals with
  | nil => rfl
  | cons arriving later => simp [Simulation.runLoop, hq]

/-- The `select` of `Start` sets the quit flag only by processing a Quit command, and then the
`CommandProcessed` event of that command is the last event of the log. -/
theorem selectCommand_quit (u : Updater) (sim sim' : Simulation)
    (hq : sim.should_quit = false) (h : sim.selectCommand u = .ok sim')
    (hq' : sim'.should_quit = true) :
    ∃ payload waiting, sim.commands = ⟨.Quit, payload⟩ :: waiting ∧
      sim'.logger = sim.logger ++
        [{ Type_ := CommandProcessed,
           Payload := .commandProcessed
             { Epoch := sim.epoch, Command := ⟨.Quit, payload⟩ } }] := by
  unfold Simulation.selectCommand at h
  cases hc : sim.commands with
  | nil =>
    simp only [hc, Except.ok.injEq] at h
    rw [← h, (simulateEpoch_control u sim).2.2.2.1, hq] at hq'
    cases hq'
  | cons command waiting =>
    simp only [hc] at h
    cases hsw : Simulation.switchCommand { sim with commands := waiting } command with
    | error msg => simp [Simulation.processCommand, hsw] at h
    | ok sim1 =>
      rw [processCommand_of_switch _ command sim1 hsw] at h
      simp only [Except.ok.injEq] at h
      rcases switchCommand_quit_flag _ command sim1 hsw with ⟨hty, h1⟩ | ⟨-, h1⟩
      · obtain ⟨ty, pl⟩ := command
        simp only at hty
        subst hty
        refine ⟨pl, waiting, rfl, ?_⟩
        rw [← h, h1]
        rfl
      · rw [← h] at hq'
        simp only at hq'
        rw [h1] at hq'
        simp only at hq'
        rw [hq] at hq'
        cases hq'

/-- In every run of the loop of `Start` that ends with the quit flag set, the last event of the
log is the `CommandProcessed` event of a Quit command. -/
theorem runLoop_quit_last (u : Updater) (arrivals : List (List Command)) :
    ∀ (sim final : Simulation), sim.should_quit = false →
      sim.runLoop u arrivals = .ok final → final.should_quit = true →
      ∃ epoch payload, final.logger.getLast? =
        some { Type_ := CommandProcessed,
               Payload := .commandProcessed
                 { Epoch := epoch, Command := ⟨.Quit, payload⟩ } } := by
  induction arrivals with
  | nil =>
    intro sim final hq h hq'
    simp only [Simulation.runLoop, Except.ok.injEq] at h
    rw [← h, hq] at hq'
    cases hq'
  | cons arriving later ih =>
    intro sim final hq h hq'
    obtain ⟨hs1, hs2, hs3⟩ := foldl_SendCommand arriving sim
    unfold Simulation.runLoop at h
    rw [if_neg (by simp [hq])] at h
    cases hsel : (arriving.foldl Simulation.SendCommand sim).selectCommand u with
    | error msg => simp [hsel] at h
    | ok s =>
      simp only [hsel] at h
      cases hsq : s.should_quit with
      | false => exact ih s final hsq h hq'
      | true =>
        rw [runLoop_of_quit u s hsq later] at h
        simp only [Except.ok.injEq] at h
        subst h
        obtain ⟨payload, waiting, -, hlog⟩ :=
          selectCommand_quit u _ s (hs1.trans hq) hsel hsq
        exact ⟨(arriving.foldl Simulation.SendCommand sim).epoch, payload, by rw [hlog]; simp⟩

/-- C11: when an iteration of the loop of `Start` finds a Quit command waiting, whether the
simulation is paused or not, it processes the command: the quit flag is then true, the pause
flag is as before, and the `CommandProcessed` event of the Quit is the last event of the log;
from that state the loop takes no further step (`Start` returns), whatever commands still
arrive, so nothing, and no `EpochEnd` in particular, is logged after it.  Over whole runs: in
every run of `Start` that ends with the quit flag set, the last event of the log is the
`CommandProcessed` event of a Quit command. -/
theorem quit_stops_loop (u : Updater) (sim : Simulation) (payload : CommandPayload)
    (waiting : List Command) (hq : sim.should_quit = false)
    (hc : sim.commands = ⟨.Quit, payload⟩ :: waiting) :
    (∃ sim', sim.loopIteration u = .ok (some sim') ∧
      sim'.should_quit = true ∧ sim'.is_paused = sim.is_paused ∧
      sim'.logger = sim.logger ++
        [{ Type_ := CommandProcessed,
           Payload := .commandProcessed
             { Epoch := sim.epoch, Command := ⟨.Quit, payload⟩ } }] ∧
      sim'.loopIteration u = .ok none ∧
      ∀ arrivals, sim'.runLoop u arrivals = .ok sim') ∧
    (∀ (rng : Sampler) (start final : Simulation) (arrivals : List (List Command)),
      start.should_quit = false → start.Start u rng arrivals = .ok final →
      final.should_quit = true →
      ∃ epoch payload', final.logger.getLast? =
        some { Type_ := CommandProcessed,
               Payload := .commandProcessed
                 { Epoch := epoch, Command := ⟨.Quit, payload'⟩ } }) := by
  constructor
  · have hrun : sim.loopIteration u =
        .ok (some { sim with
          commands := waiting, should_quit := true,
          logger := sim.logger ++
            [{ Type_ := CommandProcessed,
               Payload := .commandProcessed
                 { Epoch := sim.epoch, Command := ⟨.Quit, payload⟩ } }] }) := by
      unfold Simulation.loopIteration Simulation.selectCommand
      rw [if_neg (by simp [hq]), hc]
      rfl
    refine ⟨_, hrun, rfl, rfl, rfl, ?_, fun arrivals => runLoop_of_quit u _ rfl arrivals⟩
    simp [Simulation.loopIteration]
  · intro rng start final arrivals hs hstart hfinal
    unfold Simulation.Start at hstart
    cases hinf : start.infectRandomAgent u rng with
    | error msg => simp [hinf] at hstart
    | ok s =>
      simp only [hinf] at hstart
      have hsq : s.should_quit = false := by
        unfold Simulation.infectRandomAgent at hinf
        simp only at hinf
        split at hinf
        · simp only [Except.ok.injEq] at hinf
          rw [← hinf]
          exact hs
        · cases hinf
      exact runLoop_quit_last u arrivals s final hsq hstart hfinal

/-- Witness for C11: the sample simulation, paused, with a Quit waiting; and a run of `Start`
in which a Quit arrives before the third iteration. -/
theorem quit_stops_loop_witness :
    (∃ sim', Simulation.loopIteration sampleUpdater
        { sampleRunning with is_paused := true, commands := [⟨.Quit, .nil⟩] } =
          .ok (some sim') ∧
      sim'.should_quit = true ∧ sim'.is_paused = true ∧
      sim'.logger = [] ++
        [{ Type_ := CommandProcessed,
           Payload := .commandProcessed { Epoch := 23, Command := ⟨.Quit, .nil⟩ } }] ∧
      sim'.loopIteration sampleUpdater = .ok none ∧
      ∀ arrivals, sim'.runLoop sampleUpdater arrivals = .ok sim') ∧
    (∃ final, Simulation.Start sampleUpdater (constantSampler 4) sampleRunning
        [[], [], [⟨.Quit, .nil⟩], [], []] = .ok final ∧
      final.should_quit = true ∧
      final.logger.map (·.Type_) =
        [AgentStateUpdate,
         AgentLocationUpdate, AgentLocationUpdate, SpaceOccupancyUpdate, SpaceOccupancyUpdate,
         SpaceOccupancyUpdate, SpaceOccupancyUpdate, EpochEnd,
         AgentLocationUpdate, AgentLocationUpdate, SpaceOccupancyUpdate, SpaceOccupancyUpdate,
         SpaceOccupancyUpdate, SpaceOccupancyUpdate, EpochEnd,
         CommandProcessed] ∧
      ∃ epoch payload', final.logger.getLast? =
        some { Type_ := CommandProcessed,
               Payload := .commandProcessed
                 { Epoch := epoch, Command := ⟨.Quit, payload'⟩ } }) := by
  have h := quit_stops_loop sampleUpdater
    { sampleRunning with is_paused := true, commands := [⟨.Quit, .nil⟩] } .nil [] rfl rfl
  refine ⟨h.1, ?_⟩
  cases hfinal : Simulation.Start sampleUpdater (constantSampler 4) sampleRunning
      [[], [], [⟨.Quit, .nil⟩], [], []] with
  | error msg =>
    have hok : (Simulation.Start sampleUpdater (constantSampler 4) sampleRunning
      [[], [], [⟨.Quit, .nil⟩], [], []]).toBool = true := by decide
    rw [hfinal] at hok
    cases hok
  | ok final =>
    have hq : (Simulation.Start sampleUpdater (constantSampler 4) sampleRunning
        [[], [], [⟨.Quit, .nil⟩], [], []]).map (·.should_quit) = .ok true := rfl
    have hl : (Simulation.Start sampleUpdater (constantSampler 4) sampleRunning
        [[], [], [⟨.Quit, .nil⟩], [], []]).map (fun s => s.logger.map (·.Type_)) =
        .ok [AgentStateUpdate,
         AgentLocationUpdate, AgentLocationUpdate, SpaceOccupancyUpdate, SpaceOccupancyUpdate,
         SpaceOccupancyUpdate, SpaceOccupancyUpdate, EpochEnd,
         AgentLocationUpdate, AgentLocationUpdate, SpaceOccupancyUpdate, SpaceOccupancyUpdate,
         SpaceOccupancyUpdate, SpaceOccupancyUpdate, EpochEnd,
         CommandProcessed] := rfl
    rw [hfinal] at hq hl
    simp only [Except.map, Except.ok.injEq] at hq hl
    exact ⟨final, rfl, hq, hl, h.2 (constantSampler 4) sampleRunning final _ rfl hfinal hq⟩

/-! ## C18 -/

theorem drawAffiliations_error (spaces : List Space) (rng : Sampler) (n : Nat) :
    ∀ (draw : Nat) (msg : String), drawAffiliations spaces rng n draw = .error msg →
      msg = "index out of range" := by
  induction n with
  | zero => intro draw msg h; simp [drawAffiliations] at h
  | succ n ih =>
    intro draw msg h
    simp only [drawAffiliations] at h
    split at h
    · cases hrest : drawAffiliations spaces rng n (draw + 1) with
      | error msg' =>
        rw [hrest] at h
        simp only [Except.map, Except.error.injEq] at h
        rw [← h]
        exact ih _ _ hrest
      | ok l => rw [hrest] at h; simp [Except.map] at h
    · simp only [Except.error.injEq] at h
      exact h.symm

theorem drawAffiliations_nil (rng : Sampler) (n draw : Nat) :
    drawAffiliations [] rng (n + 1) draw = .error "index out of range" := by
  simp only [drawAffiliations, List.length_nil, Nat.cast_zero]
  rw [if_neg (by omega)]

theorem toNat_max_one (x : Int) : ∃ k, (max 1 x).toNat = k + 1 :=
  ⟨(max 1 x).toNat - 1, by omega⟩

theorem buildAgentsLoop_error (social_spaces healthcare_spaces : List Space) (rng : Sampler)
    (count : Nat) :
    ∀ (draw : Nat) (msg : String),
      buildAgentsLoop social_spaces healthcare_spaces rng count draw = .error msg →
        msg = "index out of range" := by
  induction count with
  | zero => intro draw msg h; simp [buildAgentsLoop] at h
  | succ count ih =>
    intro draw msg h
    simp only [buildAgentsLoop] at h
    split at h
    · next msg' hsoc =>
      simp only [Except.error.injEq] at h
      rw [← h]
      exact drawAffiliations_error _ _ _ _ _ hsoc
    · split at h
      · next msg' hhc =>
        simp only [Except.error.injEq] at h
        rw [← h]
        exact drawAffiliations_error _ _ _ _ _ hhc
      · cases hrest : buildAgentsLoop social_spaces healthcare_spaces rng count _ with
        | error msg' =>
          rw [hrest] at h
          simp only [Except.map, Except.error.injEq] at h
          rw [← h]
          exact ih _ _ hrest
        | ok l => rw [hrest] at h; simp [Except.map] at h

/-- The first loop of `createAgents` panics for a positive count when the social-space list or
the healthcare-space list is empty. -/
theorem buildAgentsLoop_empty (social_spaces healthcare_spaces : List Space) (rng : Sampler)
    (count draw : Nat) (h : social_spaces = [] ∨ healthcare_spaces = []) :
    buildAgentsLoop social_spaces healthcare_spaces rng (count + 1) draw =
      .error "index out of range" := by
  obtain ⟨k1, hk1⟩ := toNat_max_one (rng.normalFloor 5 4 (draw + 1))
  obtain ⟨k2, hk2⟩ := toNat_max_one (rng.normalFloor 5 4 (draw + 2 + (k1 + 1)))
  simp only [buildAgentsLoop, hk1, hk2]
  cases hsoc : drawAffiliations social_spaces rng (k1 + 1) (draw + 2) with
  | error msg => rw [drawAffiliations_error _ _ _ _ _ hsoc]
  | ok social =>
    rcases h with h | h
    · subst h
      rw [drawAffiliations_nil] at hsoc
      cases hsoc
    · subst h
      simp only [drawAffiliations_nil]

theorem allocateLoop_error (assign : Agent → Nat → Agent) (spaces : List Space)
    (agents : List Agent) :
    ∀ (idx : Nat) (alloc : Int) (msg : String),
      allocateLoop assign spaces agents idx alloc = .error msg → msg = "index out of range" := by
  induction agents with
  | nil => intro idx alloc msg h; simp [allocateLoop] at h
  | cons agent rest ih =>
    intro idx alloc msg h
    simp only [allocateLoop] at h
    split at h
    · simp only [Except.error.injEq] at h
      exact h.symm
    · split at h
      · cases hrest : allocateLoop assign spaces rest (idx + 1) 0 with
        | error msg' =>
          rw [hrest] at h
          simp only [Except.map, Except.error.injEq] at h
          rw [← h]
          exact ih _ _ _ hrest
        | ok l => rw [hrest] at h; simp [Except.map] at h
      · cases hrest : allocateLoop assign spaces rest idx (alloc + 1) with
        | error msg' =>
          rw [hrest] at h
          simp only [Except.map, Except.error.injEq] at h
          rw [← h]
          exact ih _ _ _ hrest
        | ok l => rw [hrest] at h; simp [Except.map] at h

theorem allocateLoop_length (assign : Agent → Nat → Agent) (spaces : List Space)
    (agents : List Agent) :
    ∀ (idx : Nat) (alloc : Int) (out : List Agent),
      allocateLoop assign spaces agents idx alloc = .ok out → out.length = agents.length := by
  induction agents with
  | nil =>
    intro idx alloc out h
    simp only [allocateLoop, Except.ok.injEq] at h
    rw [← h]
  | cons agent rest ih =>
    intro idx alloc out h
    simp only [allocateLoop] at h
    split at h
    · cases h
    · split at h
      · cases hrest : allocateLoop assign spaces rest (idx + 1) 0 with
        | error msg' => rw [hrest] at h; simp [Except.map] at h
        | ok l =>
          rw [hrest] at h
          simp only [Except.map, Except.ok.injEq] at h
          rw [← h, List.length_cons, List.length_cons, ih _ _ _ hrest]
      · cases hrest : allocateLoop assign spaces rest idx (alloc + 1) with
        | error msg' => rw [hrest] at h; simp [Except.map] at h
        | ok l =>
          rw [hrest] at h
          simp only [Except.map, Except.ok.injEq] at h
          rw [← h, List.length_cons, List.length_cons, ih _ _ _ hrest]

theorem allocateLoop_nil (assign : Agent → Nat → Agent) (agent : Agent) (rest : List Agent)
    (idx : Nat) (alloc : Int) :
    allocateLoop assign [] (agent :: rest) idx alloc = .error "index out of range" := by
  simp [allocateLoop]

/-- With a positive count that `make` accepts and one of the four lists empty, `createAgents`
panics with an index out of range. -/
theorem createAgents_fails (count : Int)
    (households offices social_spaces healthcare_spaces : List Space) (rng : Sampler)
    (hcount : 0 < count) (hmax : count ≤ maxSliceLen)
    (hempty : households = [] ∨ offices = [] ∨ social_spaces = [] ∨ healthcare_spaces = []) :
    createAgents count households offices social_spaces healthcare_spaces rng =
      .error "index out of range" := by
  obtain ⟨n, hn⟩ : ∃ n, count.toNat = n + 1 := ⟨count.toNat - 1, by omega⟩
  have hfits : ¬ maxSliceLen < ((n + 1 : Nat) : Int) := by omega
  simp only [createAgents, if_neg (not_lt.2 (le_of_lt hcount)), hn, buildAgents, if_neg hfits]
  cases hb : buildAgentsLoop social_spaces healthcare_spaces rng (n + 1) 0 with
  | error msg => rw [buildAgentsLoop_error _ _ _ _ _ _ hb]
  | ok built =>
    have hlen : built.length = n + 1 := buildAgentsLoop_length _ _ _ _ _ _ hb
    simp only [allocateAgents, allocateHouseholds, allocateOffices]
    rcases hempty with h | h | h | h
    · subst h
      obtain ⟨agent, rest, rfl⟩ := List.exists_cons_of_length_eq_add_one hlen
      simp only [allocateLoop_nil]
    · subst h
      cases hh : allocateLoop assignHousehold households built 0 0 with
      | error msg => rw [allocateLoop_error _ _ _ _ _ _ hh]
      | ok out =>
        have hout : out.length = n + 1 := by rw [allocateLoop_length _ _ _ _ _ _ hh, hlen]
        obtain ⟨agent, rest, rfl⟩ := List.exists_cons_of_length_eq_add_one hout
        simp only [allocateLoop_nil]
    · rw [buildAgentsLoop_empty _ _ _ _ _ (Or.inl h)] at hb
      cases hb
    · rw [buildAgentsLoop_empty _ _ _ _ _ (Or.inr h)] at hb
      cases hb

/-- A count past the limit of `make` panics in the allocation, before any list is read. -/
theorem createAgents_makeslice (count : Int)
    (households offices social_spaces healthcare_spaces : List Space) (rng : Sampler)
    (hmax : maxSliceLen < count) :
    createAgents count households offices social_spaces healthcare_spaces rng =
      .error "makeslice: len out of range" := by
  have hpos : ¬ count < 0 := by unfold maxSliceLen at hmax; omega
  have hbig : maxSliceLen < ((count.toNat : Nat) : Int) := by
    unfold maxSliceLen at hmax ⊢
    omega
  simp only [createAgents, if_neg hpos, buildAgents, if_pos hbig]

/-- C18, as amended: for every agent count > 0, `createAgents` does not return a population but
panics whenever the household list, the office list, the social-space list or the
healthcare-space list it is given is empty: with an index out of range when the count is one
`make([]*Agent, count)` accepts (at most 2^45), and with "makeslice: len out of range", before
any list is read, when the count is larger. -/
theorem createAgents_empty_list_panics (count : Int)
    (households offices social_spaces healthcare_spaces : List Space) (rng : Sampler)
    (hcount : 0 < count)
    (hempty : households = [] ∨ offices = [] ∨ social_spaces = [] ∨ healthcare_spaces = []) :
    (∀ agents,
      createAgents count households offices social_spaces healthcare_spaces rng ≠ .ok agents) ∧
    (count ≤ maxSliceLen →
      createAgents count households offices social_spaces healthcare_spaces rng =
        .error "index out of range") ∧
    (maxSliceLen < count →
      createAgents count households offices social_spaces healthcare_spaces rng =
        .error "makeslice: len out of range") := by
  refine ⟨fun agents hok => ?_,
    fun hmax => createAgents_fails count households offices social_spaces healthcare_spaces rng
      hcount hmax hempty,
    fun hmax => createAgents_makeslice count households offices social_spaces healthcare_spaces
      rng hmax⟩
  by_cases hmax : count ≤ maxSliceLen
  · rw [createAgents_fails count households offices social_spaces healthcare_spaces rng
      hcount hmax hempty] at hok
    cases hok
  · rw [createAgents_makeslice count households offices social_spaces healthcare_spaces rng
      (not_le.1 hmax)] at hok
    cases hok

/-- Witness for C18: 23 agents with the sample households, offices and social spaces and no
healthcare space. -/
theorem createAgents_empty_list_panics_witness :
    (0 : Int) < 23 ∧
    (∀ agents,
      createAgents 23 sampleHouseholds sampleOffices sampleSocialSpaces [] (constantSampler 4) ≠
        .ok agents) ∧
    createAgents 23 sampleHouseholds sampleOffices sampleSocialSpaces [] (constantSampler 4) =
      .error "index out of range" :=
  ⟨by decide,
   (createAgents_empty_list_panics 23 sampleHouseholds sampleOffices sampleSocialSpaces []
     (constantSampler 4) (by decide) (Or.inr (Or.inr (Or.inr rfl)))).1,
   (createAgents_empty_list_panics 23 sampleHouseholds sampleOffices sampleSocialSpaces []
     (constantSampler 4) (by decide) (Or.inr (Or.inr (Or.inr rfl)))).2.1 (by decide)⟩

/-- Counterexample to C18 as stated: with 2^62 agents and no space at all, `createAgents` does
not panic with an index out of range: `make([]*Agent, count)` panics with "makeslice: len out of
range" before any list is read. -/
theorem createAgents_empty_list_makeslice :
    (0 : Int) < 4611686018427387904 ∧
    createAgents 4611686018427387904 [] [] [] [] (constantSampler 4) =
      .error "makeslice: len out of range" ∧
    createAgents 4611686018427387904 [] [] [] [] (constantSampler 4) ≠
      .error "index out of range" := by
  have h : createAgents 4611686018427387904 [] [] [] [] (constantSampler 4) =
      .error "makeslice: len out of range" := rfl
  refine ⟨by decide, h, ?_⟩
  rw [h]
  intro hne
  simp only [Except.error.injEq] at hne
  exact absurd hne (by decide)

/-! ## C20 -/

/-- Every space constructor, called with the fuel of its target, comes back; the list is empty
for a target ≤ 0 and not empty for a target > 0. -/
theorem createSpacesLoop_total (kind : SpaceKind) (mu sigma : Nat) (total : Int)
    (rng : Sampler) :
    ∃ spaces, createSpacesLoop kind mu sigma rng total.toNat total 0 = some spaces ∧
      (total ≤ 0 → spaces = []) ∧ (0 < total → spaces ≠ []) := by
  obtain ⟨l, hl, -, hsum, hnil⟩ :=
    createSpacesLoop_spec kind mu sigma rng total.toNat total 0 (by omega)
  refine ⟨l, hl, hnil, fun hpos hl0 => ?_⟩
  rw [hl0] at hsum
  simp [totalCapacity] at hsum
  omega

/-- C20: for every NumAgents with 0 < NumAgents < 100 the social-space list that
`NewSimulation` builds is empty, and for every NumAgents with 0 < NumAgents < 1000 the
healthcare-space list is empty and `NewSimulation` fails: its call of `createAgents` panics with
an index out of range.  For every NumAgents ≥ 1000 the four space lists are non-empty. -/
theorem NewSimulation_small_population (config : Config) (jurisdictions : List Jurisdiction)
    (now : Time) (rng1 rng2 rng3 rng4 rng5 : Sampler) :
    (0 < config.NumAgents → config.NumAgents < 100 →
      createSocialSpaces (Int.tdiv config.NumAgents 100) rng3 = some []) ∧
    (0 < config.NumAgents → config.NumAgents < 1000 →
      Int.tdiv config.NumAgents 1000 * 5 = 0 ∧
      createHealthCareSpaces (Int.tdiv config.NumAgents 1000 * 5) rng4 = some [] ∧
      NewSimulation config jurisdictions now rng1 rng2 rng3 rng4 rng5 =
        some (.error "index out of range")) ∧
    (1000 ≤ config.NumAgents →
      ∃ households offices social_spaces healthcare_spaces,
        createHouseholds config.NumAgents rng1 = some households ∧
        createOffices config.NumAgents rng2 = some offices ∧
        createSocialSpaces (Int.tdiv config.NumAgents 100) rng3 = some social_spaces ∧
        createHealthCareSpaces (Int.tdiv config.NumAgents 1000 * 5) rng4 =
          some healthcare_spaces ∧
        households ≠ [] ∧ offices ≠ [] ∧ social_spaces ≠ [] ∧ healthcare_spaces ≠ []) := by
  obtain ⟨hs, e1, -, n1⟩ := createSpacesLoop_total .Household 4 1 config.NumAgents rng1
  obtain ⟨os, e2, -, n2⟩ := createSpacesLoop_total .Office 10 2 config.NumAgents rng2
  obtain ⟨ss, e3, z3, n3⟩ :=
    createSpacesLoop_total .Social 10 2 (Int.tdiv config.NumAgents 100) rng3
  obtain ⟨cs, e4, z4, n4⟩ :=
    createSpacesLoop_total .Healthcare 173 25 (Int.tdiv config.NumAgents 1000 * 5) rng4
  have c1 : createHouseholds config.NumAgents rng1 = some hs := e1
  have c2 : createOffices config.NumAgents rng2 = some os := e2
  have c3 : createSocialSpaces (Int.tdiv config.NumAgents 100) rng3 = some ss := e3
  have c4 : createHealthCareSpaces (Int.tdiv config.NumAgents 1000 * 5) rng4 = some cs := e4
  have d1 : 0 ≤ config.NumAgents → Int.tdiv config.NumAgents 100 = config.NumAgents / 100 :=
    fun hn => Int.tdiv_eq_ediv hn (by decide)
  have d2 : 0 ≤ config.NumAgents → Int.tdiv config.NumAgents 1000 = config.NumAgents / 1000 :=
    fun hn => Int.tdiv_eq_ediv hn (by decide)
  refine ⟨fun hpos hlt => ?_, fun hpos hlt => ?_, fun hge => ?_⟩
  · rw [c3, z3 (by rw [d1 (by omega)]; omega)]
  · have hz : Int.tdiv config.NumAgents 1000 * 5 = 0 := by rw [d2 (by omega)]; omega
    have hcs : cs = [] := z4 (by omega)
    refine ⟨hz, by rw [c4, hcs], ?_⟩
    subst hcs
    simp only [NewSimulation, goDiv, c1, c2, c3, c4]
    rw [createAgents_fails config.NumAgents hs os ss [] rng5 hpos
      (by unfold maxSliceLen; omega) (Or.inr (Or.inr (Or.inr rfl)))]
    rfl
  · exact ⟨hs, os, ss, cs, c1, c2, c3, c4, n1 (by omega), n2 (by omega),
      n3 (by rw [d1 (by omega)]; omega), n4 (by rw [d2 (by omega)]; omega)⟩

/-- Witness for C20: 50 agents, 500 agents and 2500 agents. -/
theorem NewSimulation_small_population_witness :
    createSocialSpaces (Int.tdiv 50 100) (constantSampler 10) = some [] ∧
    (createHealthCareSpaces (Int.tdiv 500 1000 * 5) (constantSampler 173) = some [] ∧
      NewSimulation ⟨1, ⟨1, 2, 3, 4⟩, 500, 3600000⟩ [] 0 (constantSampler 4)
        (constantSampler 10) (constantSampler 10) (constantSampler 173) (constantSampler 5) =
        some (.error "index out of range")) ∧
    (∃ households offices social_spaces healthcare_spaces,
      createHouseholds 2500 (constantSampler 4) = some households ∧
      createOffices 2500 (constantSampler 10) = some offices ∧
      createSocialSpaces (Int.tdiv 2500 100) (constantSampler 10) = some social_spaces ∧
      createHealthCareSpaces (Int.tdiv 2500 1000 * 5) (constantSampler 173) =
        some healthcare_spaces ∧
      households ≠ [] ∧ offices ≠ [] ∧ social_spaces ≠ [] ∧ healthcare_spaces ≠ []) :=
  ⟨(NewSimulation_small_population ⟨1, ⟨1, 2, 3, 4⟩, 50, 3600000⟩ [] 0 (constantSampler 4)
      (constantSampler 10) (constantSampler 10) (constantSampler 173) (constantSampler 5)).1
      (by decide) (by decide),
   ((NewSimulation_small_population ⟨1, ⟨1, 2, 3, 4⟩, 500, 3600000⟩ [] 0 (constantSampler 4)
      (constantSampler 10) (constantSampler 10) (constantSampler 173) (constantSampler 5)).2.1
      (by decide) (by decide)).2,
   (NewSimulation_small_population ⟨1, ⟨1, 2, 3, 4⟩, 2500, 3600000⟩ [] 0 (constantSampler 4)
      (constantSampler 10) (constantSampler 10) (constantSampler 173) (constantSampler 5)).2.2
      (by decide)⟩

end SimulationEngine
